import Mathlib

/-!
# Verification of the rez core (schema derivation, value binding, validation)

This file is a shallow embedding of the core of the `rez` repository:

* the value-tree builder for wire values (`queryNode` and friends, `args.go`),
* the schema-walking validator (`Validate` in the `rez` package),
* the schema builder (`Builder.BuildSchema` and friends, `api` package).

Go machine integers are modelled as `Int` (the embedded code never relies on
wrap-around: `strconv.Atoi` rejects out-of-range input, and the validator's
`float64` round-trips are exact on the integer inputs modelled here).
Fallible Go code (panics) returns `Option`.  Go's pointer-shared mutable
state is made explicit: the validator threads the ordered failure list as a
return value, and the schema builder threads an arena (handle-indexed schema
table) plus a type-keyed cache, following the design's own description of
promoted schemas as arena entries addressed by handles.
-/

/-- Association-list lookup (model of a Go `map` read, `m[k]`). -/
def alookup {α β : Type} [DecidableEq α] : List (α × β) → α → Option β
  | [], _ => none
  | (k, v) :: rest, key => if k = key then some v else alookup rest key

/-- Association-list update-or-append (model of a Go `map` write, `m[k] = v`). -/
def aset {α β : Type} [DecidableEq α] : List (α × β) → α → β → List (α × β)
  | [], key, value => [(key, value)]
  | (k, v) :: rest, key, value =>
    if k = key then (key, value) :: rest else (k, v) :: aset rest key value

/-- Go `strconv.Atoi`: optional sign, then decimal digits, rejecting the empty
string, stray characters and values outside the signed 64-bit range. -/
def parseGoInt (s : String) : Option Int :=
  let cs := s.toList
  let signed : Bool × List Char :=
    match cs with
    | '-' :: rest => (true, rest)
    | '+' :: rest => (false, rest)
    | rest => (false, rest)
  let neg := signed.1
  let digits := signed.2
  if digits.isEmpty then none
  else if digits.all (fun c => c.isDigit) then
    let n : Nat := digits.foldl (fun acc c => acc * 10 + (c.toNat - '0'.toNat)) 0
    let v : Int := if neg then -(n : Int) else (n : Int)
    if v < -(2 ^ 63) ∨ 2 ^ 63 - 1 < v then none else some v
  else none

/-! ## Value tree (`queryNode`, `args.go`)

`queryNode` carries an object map, a sparse array, a scalar value and a kind
tag; `get` walks one path segment (array access when the segment parses as an
integer, object access otherwise) and `set` stores a scalar at the leaf. -/

/-- `queryNodeKind` from `args.go`. -/
inductive QueryNodeKind where
  | unspecified
  | slice
  | object
  | value
deriving DecidableEq, Repr

/-- `queryNode` from `args.go`: `obj map[string]*queryNode`, `arr []*queryNode`
(`none` entries are Go `nil` pointers, i.e. unset gaps), `value`, `kind`. -/
inductive QueryNode where
  | mk (obj : List (String × QueryNode)) (arr : List (Option QueryNode))
      (value : Option String) (kind : QueryNodeKind)

/-- Object entries of a node. -/
def QueryNode.obj : QueryNode → List (String × QueryNode)
  | .mk o _ _ _ => o

/-- Array entries of a node. -/
def QueryNode.arr : QueryNode → List (Option QueryNode)
  | .mk _ a _ _ => a

/-- Scalar value of a node. -/
def QueryNode.value : QueryNode → Option String
  | .mk _ _ v _ => v

/-- Kind tag of a node. -/
def QueryNode.kind : QueryNode → QueryNodeKind
  | .mk _ _ _ k => k

/-- A fresh `&queryNode{}`: everything zero. -/
def QueryNode.empty : QueryNode := .mk [] [] none .unspecified

/-- One combined walk-and-write pass of `args.go`: `curr := node; for seg in
path { curr = curr.get(seg) }; curr.set(v)`, rebuilt persistently.  `get`
re-tags the node's kind on every access: integer segments (Go `strconv.Atoi`
succeeding) take the array branch — growing the array to index+1 when too
short and then indexing it, which panics (`none`) when the parsed index is
negative — and all other segments take the object branch.  `set` stores the
scalar and tags the leaf `value`. -/
def qset : QueryNode → List String → String → Option QueryNode
  | node, [], v => some (.mk node.obj node.arr (some v) .value)
  | node, seg :: rest, v =>
    match parseGoInt seg with
    | some i =>
      let arr0 := node.arr
      let arr1 :=
        if (arr0.length : Int) ≤ i then
          arr0 ++ List.replicate (i + 1 - (arr0.length : Int)).toNat none
        else arr0
      if h : 0 ≤ i ∧ i.toNat < arr1.length then
        let child := (arr1.get ⟨i.toNat, h.2⟩).getD QueryNode.empty
        match qset child rest v with
        | none => none
        | some child' =>
          some (.mk node.obj (arr1.set i.toNat (some child')) node.value .slice)
      else none
    | none =>
      let child := (alookup node.obj seg).getD QueryNode.empty
      match qset child rest v with
      | none => none
      | some child' => some (.mk (aset node.obj seg child') node.arr node.value .object)

/-- The separator class of `urlKeySplitter` (`[\]\[\.]+`). -/
def isQuerySep (c : Char) : Bool := c = ']' || c = '[' || c = '.'

/-- `dropWhile` never lengthens a list (termination helper). -/
theorem dropWhile_length_le (p : Char → Bool) (l : List Char) :
    (l.dropWhile p).length ≤ l.length := by
  induction l with
  | nil => simp [List.dropWhile]
  | cons c rest ih =>
    by_cases h : p c
    · simpa [List.dropWhile, h] using Nat.le_trans ih (Nat.le_succ _)
    · simp [List.dropWhile, h]

/-- Split around maximal runs of separator characters, as
`urlKeySplitter.Split(s, -1)` does (adjacent separators produce no empty
tokens; a leading or trailing separator produces an empty edge token). -/
def splitRuns (cs : List Char) (acc : List Char) : List String :=
  match cs with
  | [] => [String.mk acc.reverse]
  | c :: rest =>
    if isQuerySep c then
      String.mk acc.reverse :: splitRuns (rest.dropWhile isQuerySep) []
    else
      splitRuns rest (c :: acc)
termination_by cs.length
decreasing_by
  · exact Nat.lt_succ_of_le (dropWhile_length_le _ _)
  · simp

/-- `strings.TrimRight(k, "]")`: drop trailing `']'` characters. -/
def goTrimRightBracket (s : String) : String :=
  String.mk (s.toList.reverse.dropWhile (fun c => c = ']')).reverse

/-- Key-to-path translation of `applyURLValuesToTarget`:
`urlKeySplitter.Split(strings.TrimRight(k, "]"), -1)`. -/
def splitQueryKey (s : String) : List String :=
  splitRuns (goTrimRightBracket s).toList []

/-- The tree-building loop of `applyURLValuesToTarget` (`args.go`), applied to
an ordered list of raw (key, first-value) pairs: starting from an object-kinded
root, each key is split into path segments and the value written at that path.
`none` models a Go panic during the walk. -/
def buildQueryTree (pairs : List (String × String)) : Option QueryNode :=
  pairs.foldlM (fun node kv => qset node (splitQueryKey kv.1) kv.2)
    (QueryNode.mk [] [] none .object)

/-! ## Values (`reflect.Value` as seen by the validator)

The validator only inspects values through `reflect`: kind, length, fields,
elements, nil-ness, and `fmt.Sprintf("%v", ·)` stringification.  `Val` models
the concrete (pointer-dereferenced) values reachable in the modelled fragment:
nil pointers become `null`, all integer kinds become `int`.  Struct fields
carry the Go field name, raw `json` tag, embedding flag and exportedness, so
the validator can run `GetJSONOptions` itself exactly as the source does.
Floats, channels and funcs are outside the fragment, as are values
implementing the `CanValidateFull`/`CanValidatePost` hook capabilities. -/

mutual
inductive Val where
  | null
  | int (n : Int)
  | str (s : String)
  | bool (b : Bool)
  | arr (items : List Val)
  | map (entries : List (String × Val))
  | strct (fields : List GoField)

inductive GoField where
  | mk (name : String) (jsonTag : String) (anonymous : Bool) (exported : Bool)
      (value : Val)
end

/-- Go field name of a struct field. -/
def GoField.name : GoField → String
  | .mk n _ _ _ _ => n

/-- Raw `json` tag of a struct field. -/
def GoField.jsonTag : GoField → String
  | .mk _ j _ _ _ => j

/-- Whether the field is embedded (`Anonymous`). -/
def GoField.anonymous : GoField → Bool
  | .mk _ _ a _ _ => a

/-- Whether the field is exported. -/
def GoField.exported : GoField → Bool
  | .mk _ _ _ e _ => e

/-- The field's value. -/
def GoField.value : GoField → Val
  | .mk _ _ _ _ v => v

/-- Insert a key-value pair into a key-sorted list (Go `fmt` prints map
entries in sorted key order). -/
def insertSorted (x : String × String) : List (String × String) → List (String × String)
  | [] => [x]
  | y :: rest => if x.1 ≤ y.1 then x :: y :: rest else y :: insertSorted x rest

/-- Sort string pairs by key. -/
def sortByKey (l : List (String × String)) : List (String × String) :=
  l.foldr insertSorted []

mutual
/-- `toString` from `args.go`: `fmt.Sprintf("%v", value)`, for the values of
the modelled fragment (nil prints `<nil>`, slices `[a b]`, string-keyed maps
`map[k:v]` in sorted key order, structs `{v1 v2}`). -/
def goToString : Val → String
  | .null => "<nil>"
  | .int n => toString n
  | .str s => s
  | .bool b => cond b "true" "false"
  | .arr items => "[" ++ String.intercalate " " (goToStringList items) ++ "]"
  | .map entries =>
    "map[" ++ String.intercalate " "
      ((sortByKey (goToStringPairs entries)).map (fun kv => kv.1 ++ ":" ++ kv.2)) ++ "]"
  | .strct fields => "\x7b" ++ String.intercalate " " (goFieldStrings fields) ++ "\x7d"

def goToStringList : List Val → List String
  | [] => []
  | v :: rest => goToString v :: goToStringList rest

def goToStringPairs : List (String × Val) → List (String × String)
  | [] => []
  | (k, v) :: rest => (k, goToString v) :: goToStringPairs rest

def goFieldStrings : List GoField → List String
  | [] => []
  | .mk _ _ _ _ v :: rest => goToString v :: goFieldStrings rest
end

mutual
/-- The zero value of a value's type (`reflect.New(val.Type()).Elem()`); the
zero slice/map is nil, which stringifies like the empty one. -/
def zeroOf : Val → Val
  | .null => .null
  | .int _ => .int 0
  | .str _ => .str ""
  | .bool _ => .bool false
  | .arr _ => .arr []
  | .map _ => .map []
  | .strct fields => .strct (zeroFields fields)

def zeroFields : List GoField → List GoField
  | [] => []
  | .mk n j a e v :: rest => .mk n j a e (zeroOf v) :: zeroFields rest
end

/-- `isNull` from the validator: nil pointers/slices/maps/interfaces.  In
`Val`, all of these are the `null` constructor. -/
def isNull : Val → Bool
  | .null => true
  | _ => false

/-- `isTextuallyEqual`: equality of `%v` stringifications. -/
def isTextuallyEqual (x y : Val) : Bool :=
  goToString x == goToString y

/-- `isZero` from the validator: textual equality with the type's zero value. -/
def isZero (v : Val) : Bool :=
  isTextuallyEqual v (zeroOf v)

/-- `strings.EqualFold`, restricted to ASCII simple folding. -/
def goEqualFold (a b : String) : Bool :=
  a.toList.map Char.toLower == b.toList.map Char.toLower

/-- `GetJSONOptions` (`api` package): derive (property name, optional, skip)
from the field name, raw `json` tag and exportedness. -/
def getJSONOptions (name jsonTag : String) (exported : Bool) :
    String × Bool × Bool :=
  let options := jsonTag.splitOn ","
  let head := options.headD ""
  let optional := decide (1 < options.length) && goEqualFold (options.getD 1 "") "omitempty"
  let property := if head == "-" then name else if head == "" then name else head
  let skip := (head == "-") || !exported
  (property, optional, skip)

/-! ## Schemas (`api.Schema`)

The schema version matching the cited sources: `Min*` bounds are pointers
(`Option Int`, absent when nil), `Max*` bounds and `MultipleOf` plain ints
whose zero value means "unset".  Subschemas (`allOf`/`oneOf`/`anyOf`/`not`/
`items`/`properties`/`additionalProperties`) are carried inline by value.
The embedded `*Reference` and the internal promoted-schema marker `named`
are identified by the arena handle of the schema they denote, following the
design's arena + named-handle description; their `$ref` strings are produced
only during document assembly, which is outside this development.  `Default`,
`XML`, `ExternalDocs` and `Discriminator` are never read or written by the
embedded code and are omitted. -/

inductive DataType where
  | string
  | number
  | integer
  | object
  | array
  | boolean
  | null
deriving DecidableEq, Repr

/-- `ValidationOptions` from the `rez` package. -/
structure ValidationOptions where
  skip : Bool := false
  enforceFormat : Bool := false
  failDeprecated : Bool := false
deriving DecidableEq, Repr

/-- The non-recursive fields of `api.Schema` (Go zero values as defaults). -/
structure SchemaCore where
  reference : Option Nat := none
  named : Option Nat := none
  type : Option DataType := none
  title : String := ""
  description : String := ""
  multipleOf : Int := 0
  maximum : Option Int := none
  exclusiveMaximum : Bool := false
  minimum : Option Int := none
  exclusiveMinimum : Bool := false
  maxLength : Int := 0
  minLength : Option Int := none
  pattern : String := ""
  maxItems : Int := 0
  minItems : Option Int := none
  uniqueItems : Bool := false
  maxProperties : Int := 0
  minProperties : Option Int := none
  required : Option (List String) := none
  enum : Option (List Val) := none
  format : String := ""
  exampleVal : Option Val := none
  nullable : Bool := false
  readOnly : Bool := false
  writeOnly : Bool := false
  deprecated : Bool := false

mutual
/-- `api.Schema`: the non-recursive core plus the recursive subschema fields. -/
inductive Schema where
  | mk (core : SchemaCore) (allOf : List Schema) (oneOf : List Schema)
      (anyOf : List Schema) (nt : Option Schema) (items : Option Schema)
      (properties : Option (List (String × Schema)))
      (additionalProperties : Option BoolSchema)

/-- `api.BoolSchema`: either a boolean or a (possibly nil) schema pointer. -/
inductive BoolSchema where
  | ofBool (b : Bool)
  | ofSchema (s : Option Schema)
end

/-- Non-recursive fields. -/
def Schema.core : Schema → SchemaCore
  | .mk c _ _ _ _ _ _ _ => c

/-- `AllOf`. -/
def Schema.allOf : Schema → List Schema
  | .mk _ a _ _ _ _ _ _ => a

/-- `OneOf`. -/
def Schema.oneOf : Schema → List Schema
  | .mk _ _ o _ _ _ _ _ => o

/-- `AnyOf`. -/
def Schema.anyOf : Schema → List Schema
  | .mk _ _ _ a _ _ _ _ => a

/-- `Not`. -/
def Schema.not : Schema → Option Schema
  | .mk _ _ _ _ n _ _ _ => n

/-- `Items`. -/
def Schema.items : Schema → Option Schema
  | .mk _ _ _ _ _ i _ _ => i

/-- `Properties` (`none` is Go's nil map). -/
def Schema.properties : Schema → Option (List (String × Schema))
  | .mk _ _ _ _ _ _ p _ => p

/-- `AdditionalProperties`. -/
def Schema.additionalProperties : Schema → Option BoolSchema
  | .mk _ _ _ _ _ _ _ ap => ap

/-- The Go zero `Schema{}`. -/
def Schema.empty : Schema := .mk {} [] [] [] none none none none

/-- A schema with only non-recursive fields set. -/
def schemaOfCore (c : SchemaCore) : Schema := .mk c [] [] [] none none none none

/-- Modelled from the spec: `Schema.GetName` is declared outside the sources;
the spec's failure record carries an "optional schema name" for promoted
schemas, modelled here by the promoted schema's arena handle. -/
def Schema.getName (s : Schema) : Option Nat :=
  s.core.named

/-! ## Validator (`Validate`, `rez` package)

`Validate(schema, value, v)` appends structured failures to the cursor's
shared, ordered list; descending into an element shares the list, composite
rules validate against detached (fresh-list) cursors and only use the
emptiness of the detached list.  The embedding returns the ordered list of
failures appended by the pass; a cursor is just its path. -/

/-- `ValidationRule` constants from the `rez` package. -/
def validationRuleMultipleOf : String := "multipleOf"

def validationRuleMaximum : String := "maximum"

def validationRuleMinimum : String := "minimum"

def validationRuleMaxLength : String := "maxLength"

def validationRuleMinLength : String := "minLength"

def validationRulePattern : String := "pattern"

def validationRuleFormat : String := "format"

def validationRuleMaxItems : String := "maxItems"

def validationRuleMinItems : String := "minItems"

def validationRuleUniqueItems : String := "uniqueItems"

def validationRuleMaxProperties : String := "maxProperties"

def validationRuleMinProperties : String := "minProperties"

def validationRuleRequired : String := "required"

def validationRuleDeprecated : String := "deprecated"

def validationRuleEnum : String := "enum"

def validationRuleNullable : String := "nullable"

def validationRuleOneOf : String := "oneOf"

def validationRuleAllOf : String := "allOf"

def validationRuleAnyOf : String := "anyOf"

def validationRuleNot : String := "not"

/-- `Validation` from the `rez` package: a single structured failure.  The
optional schema name is carried as the promoted schema's arena handle. -/
structure Validation where
  path : List String
  schemaName : Option Nat := none
  rule : String := ""
  message : String := ""
deriving DecidableEq, Repr

/-- Modelled from the spec: the validator's per-pass environment.  `options`
is the type-option provider (`v.Provider.ValidationOptions`, keyed here by the
value standing in for its concrete type); `patternCompile` models
`Schema.GetPattern` (a compiled-regex cache, declared outside the sources,
yielding `none` for uncompilable patterns) and `formatRegex` models the fixed
named-format registry `api.FormatRegex` (also declared outside the sources). -/
structure Vctx where
  options : Val → ValidationOptions
  patternCompile : String → Option (String → Bool)
  formatRegex : String → Option (String → Bool)

/-- `validateNumber` (`rez` package): numeric bounds and multiple-of, on the
exact integer fragment (Go widens to `float64`, which is lossless here). -/
def validateNumber (s : Schema) (value : Int) (rawValue : Val) (path : List String) :
    List Validation :=
  (match s.core.maximum with
   | some mx =>
     if (s.core.exclusiveMaximum && decide (mx ≤ value))
         || (!s.core.exclusiveMaximum && decide (mx < value)) then
       [{ path := path, schemaName := s.getName, rule := validationRuleMaximum,
          message := goToString rawValue ++ " exceeds the maximum of " ++ toString mx }]
     else []
   | none => []) ++
  (match s.core.minimum with
   | some mn =>
     if (s.core.exclusiveMinimum && decide (value ≤ mn))
         || (!s.core.exclusiveMinimum && decide (value < mn)) then
       [{ path := path, schemaName := s.getName, rule := validationRuleMinimum,
          message := goToString rawValue ++ " is below the minimum of " ++ toString mn }]
     else []
   | none => []) ++
  (if s.core.multipleOf ≠ 0 then
     if value.tmod s.core.multipleOf ≠ 0 then
       [{ path := path, schemaName := s.getName, rule := validationRuleMultipleOf,
          message := goToString rawValue ++ " is not a multiple of " ++ toString s.core.multipleOf }]
     else []
   else [])

/-- The `UniqueItems` loop: stringify each item, stop with a single failure at
the first duplicate. -/
def uniqueItemsCheck (schemaName : Option Nat) (items : List Val) (seen : List String)
    (path : List String) : List Validation :=
  match items with
  | [] => []
  | item :: rest =>
    let s := goToString item
    if seen.contains s then
      [{ path := path, schemaName := schemaName, rule := validationRuleUniqueItems,
         message := goToString item ++ " is not a unique item" }]
    else uniqueItemsCheck schemaName rest (s :: seen) path

/-- Subschema size facts used by the termination argument of `validate`. -/
theorem sizeOf_allOf_lt (s : Schema) : sizeOf s.allOf < sizeOf s := by
  cases s
  simp [Schema.allOf]
  omega

theorem sizeOf_oneOf_lt (s : Schema) : sizeOf s.oneOf < sizeOf s := by
  cases s
  simp [Schema.oneOf]
  omega

theorem sizeOf_anyOf_lt (s : Schema) : sizeOf s.anyOf < sizeOf s := by
  cases s
  simp [Schema.anyOf]
  omega

theorem sizeOf_not_opt_lt (s : Schema) : sizeOf s.not < sizeOf s := by
  cases s
  simp [Schema.not]
  omega

theorem sizeOf_items_lt {s ns : Schema} (h : s.items = some ns) : sizeOf ns < sizeOf s := by
  cases s
  simp [Schema.items] at h
  subst h
  simp
  omega

mutual
/-- `Validate` (`rez` package): the recursive structural walk over
(schema, value, path).  Modelled-fragment notes: values never implement the
`CanValidateFull`/`CanValidatePost` hook capabilities; `ResolveReference` is
declared outside the sources — a reference-free schema resolves to itself,
while a schema carrying a `$ref` resolves through the document registry and is
treated as unresolvable here (Go then returns without appending failures). -/
def validate (ctx : Vctx) (schema : Schema) (rawValue : Val) (path : List String) :
    List Validation :=
  if schema.core.reference.isSome then []
  else
    let options := ctx.options rawValue
    if options.skip then []
    else if isNull rawValue then
      if !schema.core.nullable && !(schema.core.type == some DataType.null) then
        [{ path := path, schemaName := schema.getName, rule := validationRuleNullable }]
      else []
    else
      let depFails :=
        if schema.core.deprecated && !isZero rawValue then
          [{ path := path, schemaName := schema.getName, rule := validationRuleDeprecated }]
        else []
      let kindFails :=
        match rawValue with
        | .null => []
        | .bool _ => []
        | .int n => validateNumber schema n rawValue path
        | .str s =>
          (match schema.core.minLength with
           | some mn =>
             if (s.length : Int) < mn then
               [{ path := path, schemaName := schema.getName, rule := validationRuleMinLength,
                  message := toString s.length ++ " does not meet the minimum length of "
                    ++ toString mn }]
             else []
           | none => []) ++
          (if schema.core.maxLength ≠ 0 ∧ schema.core.maxLength < (s.length : Int) then
            [{ path := path, schemaName := schema.getName, rule := validationRuleMaxLength,
               message := toString s.length ++ " does not meet the maximum items of "
                 ++ toString schema.core.maxLength }]
          else [])
        | .arr items =>
          (match schema.core.minItems with
           | some mn =>
             if (items.length : Int) < mn then
               [{ path := path, schemaName := schema.getName, rule := validationRuleMinItems,
                  message := toString items.length ++ " does not meet the minimum items of "
                    ++ toString mn }]
             else []
           | none => []) ++
          (if schema.core.maxItems ≠ 0 ∧ schema.core.maxItems < (items.length : Int) then
            [{ path := path, schemaName := schema.getName, rule := validationRuleMaxItems,
               message := toString items.length ++ " does not meet the maximum items of "
                 ++ toString schema.core.maxItems }]
          else []) ++
          (match schema.items with
           | some itemSchema => validateItems ctx itemSchema items 0 path
           | none => []) ++
          (if schema.core.uniqueItems then uniqueItemsCheck schema.getName items [] path
           else [])
        | .map entries =>
          (match schema.core.minProperties with
           | some mn =>
             if (entries.length : Int) < mn then
               [{ path := path, schemaName := schema.getName,
                  rule := validationRuleMinProperties,
                  message := toString entries.length
                    ++ " does not meet the minimum properties of " ++ toString mn }]
             else []
           | none => []) ++
          (if schema.core.maxProperties ≠ 0
              ∧ schema.core.maxProperties < (entries.length : Int) then
            [{ path := path, schemaName := schema.getName,
               rule := validationRuleMaxProperties,
               message := toString entries.length
                 ++ " does not meet the maximum properties of "
                 ++ toString schema.core.maxProperties }]
          else []) ++
          (match schema.additionalProperties with
           | some (.ofSchema (some valueSchema)) =>
             validateMapValues ctx valueSchema entries path
           | _ => [])
        | .strct fields =>
          match schema.properties with
          | none => []
          | some _ => validateStructFields ctx schema fields path
      let patternFails :=
        if schema.core.pattern ≠ "" then
          match ctx.patternCompile schema.core.pattern with
          | some r =>
            if r (goToString rawValue) then []
            else
              [{ path := path, schemaName := schema.getName, rule := validationRulePattern,
                 message := goToString rawValue ++ " does not match the pattern "
                   ++ schema.core.pattern }]
          | none => []
        else []
      let formatFails :=
        if schema.core.format ≠ "" && options.enforceFormat then
          match ctx.formatRegex schema.core.format with
          | some r =>
            if r (goToString rawValue) then []
            else
              [{ path := path, schemaName := schema.getName, rule := validationRuleFormat,
                 message := goToString rawValue ++ " does not match the format "
                   ++ schema.core.format }]
          | none => []
        else []
      let enumFails :=
        let enumList := schema.core.enum.getD []
        if enumList.length ≠ 0 then
          if enumList.any (fun ev => isTextuallyEqual ev rawValue) then []
          else
            [{ path := path, schemaName := schema.getName, rule := validationRuleEnum,
               message := goToString rawValue ++ " does not match one of the enum values ["
                 ++ String.intercalate " " (enumList.map goToString) ++ "]" }]
        else []
      let oneOfFails :=
        if schema.oneOf.length ≠ 0 then
          if oneOfMatches ctx schema.oneOf rawValue path 0 ≠ 0 then
            [{ path := path, schemaName := schema.getName, rule := validationRuleOneOf,
               message := goToString rawValue ++ " does not match one of the possible schemas" }]
          else []
        else []
      let allOfFails :=
        if schema.allOf.length ≠ 0 then
          allOfCheck ctx schema.allOf rawValue path schema.getName
        else []
      let anyOfFails :=
        if schema.anyOf.length ≠ 0 then
          if anyOfClean ctx schema.anyOf rawValue path then []
          else
            [{ path := path, schemaName := schema.getName, rule := validationRuleAnyOf,
               message := goToString rawValue ++ " does not match any of the possible schemas" }]
        else []
      let notFails := notCheck ctx schema.not rawValue path schema.getName
      depFails ++ kindFails ++ patternFails ++ formatFails ++ enumFails
        ++ oneOfFails ++ allOfFails ++ anyOfFails ++ notFails
termination_by (sizeOf rawValue, sizeOf schema)
decreasing_by
  all_goals simp_wf
  all_goals
    first
    | exact Prod.Lex.right _ (sizeOf_oneOf_lt _)
    | exact Prod.Lex.right _ (sizeOf_allOf_lt _)
    | exact Prod.Lex.right _ (sizeOf_anyOf_lt _)
    | exact Prod.Lex.right _ (sizeOf_not_opt_lt _)
    | exact Prod.Lex.right _ (sizeOf_items_lt (by assumption))
    | (apply Prod.Lex.left
       try simp
       try omega)

/-- The per-item loop of the array case: `Validate(schema.Items, item,
v.Next(strconv.Itoa(i)))` for each index in order, failures shared. -/
def validateItems (ctx : Vctx) (itemSchema : Schema) (items : List Val) (i : Nat)
    (path : List String) : List Validation :=
  match items with
  | [] => []
  | item :: rest =>
    validate ctx itemSchema item (path ++ [toString i])
      ++ validateItems ctx itemSchema rest (i + 1) path
termination_by (sizeOf items, sizeOf itemSchema)

/-- The per-entry loop of the map case: each value validated against the
`AdditionalProperties` schema under the stringified key (Go iterates the map
in unspecified order; the embedding uses the entry-list order). -/
def validateMapValues (ctx : Vctx) (valueSchema : Schema)
    (entries : List (String × Val)) (path : List String) : List Validation :=
  match entries with
  | [] => []
  | (k, v) :: rest =>
    validate ctx valueSchema v (path ++ [k])
      ++ validateMapValues ctx valueSchema rest path
termination_by (sizeOf entries, sizeOf valueSchema)

/-- The field loop of the struct case: skip-marked fields are skipped, a nil
required field fails with rule "required" at the cursor's (parent's) path,
embedded fields validate against the same schema, named fields against their
property schema. -/
def validateStructFields (ctx : Vctx) (schema : Schema) (fields : List GoField)
    (path : List String) : List Validation :=
  match fields with
  | [] => []
  | .mk name jsonTag anonymous exported value :: rest =>
    let jsonOpts := getJSONOptions name jsonTag exported
    let propertyName := jsonOpts.1
    let this :=
      if jsonOpts.2.2 then []
      else
        let required := (schema.core.required.getD []).any fun p =>
          goEqualFold propertyName p
        if isNull value then
          if required then
            [{ path := path, schemaName := schema.getName, rule := validationRuleRequired,
               message := propertyName ++ " is a required field" }]
          else []
        else
          let childPath := path ++ [propertyName]
          if anonymous then validate ctx schema value childPath
          else
            match alookup (schema.properties.getD []) propertyName with
            | some propSchema => validate ctx propSchema value childPath
            | none => []
    this ++ validateStructFields ctx schema rest path
termination_by (sizeOf fields, sizeOf schema)

/-- The `OneOf` counting loop: count branches whose detached validation is
clean, stopping once the count exceeds one. -/
def oneOfMatches (ctx : Vctx) (branches : List Schema) (rawValue : Val)
    (path : List String) (count : Nat) : Nat :=
  match branches with
  | [] => count
  | b :: rest =>
    if (validate ctx b rawValue path).isEmpty then
      let m := count + 1
      if 1 < m then m else oneOfMatches ctx rest rawValue path m
    else oneOfMatches ctx rest rawValue path count
termination_by (sizeOf rawValue, sizeOf branches)

/-- The `AllOf` loop: a single failure at the first branch whose detached
validation is not clean. -/
def allOfCheck (ctx : Vctx) (branches : List Schema) (rawValue : Val)
    (path : List String) (schemaName : Option Nat) : List Validation :=
  match branches with
  | [] => []
  | b :: rest =>
    if (validate ctx b rawValue path).isEmpty then
      allOfCheck ctx rest rawValue path schemaName
    else
      [{ path := path, schemaName := schemaName, rule := validationRuleAllOf,
         message := goToString rawValue ++ " does not match all of the possible schemas" }]
termination_by (sizeOf rawValue, sizeOf branches)

/-- The `AnyOf` loop: stop at the first branch whose detached validation is
clean. -/
def anyOfClean (ctx : Vctx) (branches : List Schema) (rawValue : Val)
    (path : List String) : Bool :=
  match branches with
  | [] => false
  | b :: rest =>
    (validate ctx b rawValue path).isEmpty || anyOfClean ctx rest rawValue path
termination_by (sizeOf rawValue, sizeOf branches)

/-- The `Not` block: a single failure when the detached validation against the
inner schema is clean. -/
def notCheck (ctx : Vctx) (os : Option Schema) (rawValue : Val) (path : List String)
    (schemaName : Option Nat) : List Validation :=
  match os with
  | some notSchema =>
    if (validate ctx notSchema rawValue path).isEmpty then
      [{ path := path, schemaName := schemaName, rule := validationRuleNot,
         message := goToString rawValue ++ " matches the not schema" }]
    else []
  | none => []
termination_by (sizeOf rawValue, sizeOf os)
end

/-! ## Schema builder (`Builder`, `api` package, part_003)

Go types are modelled nominally: scalar kinds, pointer/slice/array/map
constructors, and `defined` names resolved to struct declarations through a
type environment.  Named non-struct types and the `APITypeName`/`APIFullSchema`
/`APIBaseSchema`/`APIEnum`/`APIExample`/`APIDescription` capability probes are
carried by the environment.  The builder's shared mutable `*Schema` graph is
made explicit as an arena: every `&Schema{}` allocates a handle, `*s = x`
writes through it, and the internal `named` marker and `$ref` references are
identified by the handle of the schema they denote.  Go's recursion has no
structural bound (`type S []S` makes `BuildSchema` diverge), so the embedding
takes fuel; `none` models divergence/panic, `some (st, none)` models the
"no schema" result for unsupported kinds. -/

/-- The modelled fragment of Go types. -/
inductive Ty where
  | int
  | string
  | bool
  | float
  | ptr (t : Ty)
  | slice (t : Ty)
  | arrayN (n : Nat) (t : Ty)
  | mapOf (t : Ty)
  | func
  | iface
  | defined (name : String)
deriving DecidableEq, Repr

/-- A struct field as the builder sees it: Go name, raw `json` and `api` tags,
embedding flag, exportedness and field type. -/
structure FieldDef where
  name : String
  jsonTag : String
  apiTag : String
  anonymous : Bool
  exported : Bool
  ty : Ty
deriving DecidableEq

/-- A struct declaration. -/
structure StructDef where
  fields : List FieldDef
deriving DecidableEq

/-- The type environment: struct declarations plus the capability probes.
`typeName` models `APITypeName` (`IsNamedType`), `typeSchema` models the
`GetSchema(typ)` probe for `APIFullSchema` (flag `true`) / `APIBaseSchema`
(flag `false`), and `typeEnums`/`typeExample`/`typeDescription` model the
`GetEnums`/`GetExample`/`GetDescription` probes. -/
structure Env where
  structs : List (String × StructDef) := []
  typeName : List (Ty × String) := []
  typeSchema : List (Ty × (Schema × Bool)) := []
  typeEnums : List (Ty × List Val) := []
  typeExample : List (Ty × Val) := []
  typeDescription : List (Ty × String) := []

/-- `IsNamedType`: whether the type implements `HasTypeName`. -/
def isNamedType (env : Env) (t : Ty) : Bool :=
  (alookup env.typeName t).isSome

/-- Modelled from the spec: the `GetSchema(typ)` capability probe of part_003
(`GetTypeSchema` in the older builder source): a full (`true`) or base
(`false`) custom schema supplied by the type itself. -/
def getTypeSchema (env : Env) (t : Ty) : Option (Schema × Bool) :=
  alookup env.typeSchema t

/-- Modelled from the spec: the `GetEnums` capability probe (`APIEnum`). -/
def getTypeEnums (env : Env) (t : Ty) : Option (List Val) :=
  alookup env.typeEnums t

/-- Modelled from the spec: the `GetExample` capability probe (`APIExample`). -/
def getTypeExample (env : Env) (t : Ty) : Option Val :=
  alookup env.typeExample t

/-- Modelled from the spec: the `GetDescription` capability probe
(`APIDescription`), empty when the type supplies none. -/
def getTypeDescription (env : Env) (t : Ty) : String :=
  (alookup env.typeDescription t).getD ""

/-- `getConcrete`: strip all pointer layers. -/
def getConcrete : Ty → Ty
  | .ptr t => getConcrete t
  | t => t

/-- Whether the type's `reflect.Kind` is `Struct` (nominal struct types in the
modelled fragment). -/
def isStructTy : Ty → Bool
  | .defined _ => true
  | _ => false

/-- Fields of an embedded type (Go calls `typ.NumField()` on it, which panics
for non-struct kinds; those are outside the modelled fragment). -/
def structFieldsOf (env : Env) : Ty → List FieldDef
  | .defined nm => ((alookup env.structs nm).getD ⟨[]⟩).fields
  | _ => []

/-- The builder's mutable state: the schema arena (`heap`), the type-keyed
schema cache, the registration maps and the nullable/optional coupling flags. -/
structure BuildState where
  heap : List Schema := []
  cache : List (Ty × Nat) := []
  fullSchema : List (Ty × Schema) := []
  baseSchema : List (Ty × Schema) := []
  nullableIsOptional : Bool := false
  optionalIsNullable : Bool := false

/-- `&Schema{...}`: allocate a fresh arena entry, returning its handle. -/
def BuildState.alloc (st : BuildState) (s : Schema) : BuildState × Nat :=
  ({ st with heap := st.heap ++ [s] }, st.heap.length)

/-- Dereference a handle. -/
def BuildState.read (st : BuildState) (h : Nat) : Schema :=
  st.heap.getD h Schema.empty

/-- `*s = x`: write through a handle. -/
def BuildState.write (st : BuildState) (h : Nat) (s : Schema) : BuildState :=
  { st with heap := st.heap.set h s }

/-- Replace the non-recursive core of a schema. -/
def Schema.withCore (s : Schema) (c : SchemaCore) : Schema :=
  .mk c s.allOf s.oneOf s.anyOf s.not s.items s.properties s.additionalProperties

/-- Replace `AllOf`. -/
def Schema.withAllOf (s : Schema) (l : List Schema) : Schema :=
  .mk s.core l s.oneOf s.anyOf s.not s.items s.properties s.additionalProperties

/-- Replace `OneOf`. -/
def Schema.withOneOf (s : Schema) (l : List Schema) : Schema :=
  .mk s.core s.allOf l s.anyOf s.not s.items s.properties s.additionalProperties

/-- Replace `Items`. -/
def Schema.withItems (s : Schema) (i : Option Schema) : Schema :=
  .mk s.core s.allOf s.oneOf s.anyOf s.not i s.properties s.additionalProperties

/-- Replace `Properties`. -/
def Schema.withProperties (s : Schema) (p : Option (List (String × Schema))) : Schema :=
  .mk s.core s.allOf s.oneOf s.anyOf s.not s.items p s.additionalProperties

/-- Replace `AdditionalProperties`. -/
def Schema.withAdditionalProperties (s : Schema) (ap : Option BoolSchema) : Schema :=
  .mk s.core s.allOf s.oneOf s.anyOf s.not s.items s.properties ap

/-- `MergeValue` (`api` package) at an optional (pointer-valued or
zero-defaulted) field: the next value wins unless it is the zero value. -/
def mergeValueOpt {α : Type} : Option α → Option α → Option α
  | base, none => base
  | _, some v => some v

/-- `MergeValue` at a plain `int` field (zero means unset). -/
def mergeValueInt (base next : Int) : Int :=
  if next = 0 then base else next

/-- `setSchema`: register the (placeholder) schema in the cache and mark it
named.  Go stores a fresh empty `*Reference` whose `Ref` string is produced
during document assembly; the model identifies it by the schema's own handle. -/
def setSchema (st : BuildState) (t : Ty) (h : Nat) : BuildState :=
  let s := st.read h
  let st1 := st.write h (s.withCore { s.core with named := some h })
  { st1 with cache := aset st1.cache t h }

/-- Modelled from the spec: `Schema.AsReference` is declared outside the
sources; a promoted (named) node is referenced by name wherever it recurs, so
a named schema yields a fresh reference-only node while an unnamed schema is
used as-is. -/
def Schema.asReference (s : Schema) : Schema :=
  match s.core.named with
  | some h => schemaOfCore { reference := some h }
  | none => s

/-- `Builder.IsNullable` (part_003): an inline nullable flag, or a two-element
`oneOf` whose second branch is the null type. -/
def builderIsNullable (s : Schema) : Bool :=
  s.core.nullable
    || (s.oneOf.length == 2
        && ((s.oneOf.getD 1 Schema.empty).core.type == some DataType.null))

/-- `Builder.makeNullable` (part_003): a named schema is wrapped in a fresh
`oneOf(reference, null)` node; an unnamed schema with exactly one `allOf`
entry is rewritten in place to `oneOf(allOf[0], null)`; otherwise the inline
nullable flag is set in place. -/
def makeNullable (st : BuildState) (h : Nat) : BuildState × Nat :=
  let s := st.read h
  match s.core.named with
  | some _ =>
    st.alloc (Schema.mk {} []
      [s.asReference, schemaOfCore { type := some DataType.null }] [] none none none none)
  | none =>
    if s.allOf.length == 1 then
      (st.write h ((s.withAllOf []).withOneOf
        [s.allOf.getD 0 Schema.empty, schemaOfCore { type := some DataType.null }]), h)
    else
      (st.write h (s.withCore { s.core with nullable := true }), h)

/-- `splitWithEscape` (part_003). -/
def splitWithEscape (s delim escape : String) : List String :=
  ((s.replace (escape ++ delim) "\x00").splitOn delim).map
    fun token => token.replace "\x00" delim

/-- Go `strconv.ParseBool`. -/
def goParseBool (s : String) : Option Bool :=
  if s = "1" ∨ s = "t" ∨ s = "T" ∨ s = "TRUE" ∨ s = "true" ∨ s = "True" then some true
  else if s = "0" ∨ s = "f" ∨ s = "F" ∨ s = "FALSE" ∨ s = "false" ∨ s = "False" then
    some false
  else none

/-- Go `strings.SplitN(s, sep, 2)`. -/
def goSplitN2 (s sep : String) : List String :=
  match s.splitOn sep with
  | [] => [s]
  | [x] => [x]
  | x :: rest => [x, String.intercalate sep rest]

/-- One `key=value` option of `ApplyOptions` (part_003); `none` models the
panic on an unparsable numeric or boolean value. -/
def applyOption1 (s : Schema) (optionRaw : String) : Option Schema :=
  let keyValue := goSplitN2 optionRaw "="
  let key := (keyValue.headD "").trim
  let value := if 1 < keyValue.length then keyValue.getD 1 "" else key
  let c := s.core
  match String.mk (key.toList.map Char.toLower) with
  | "title" => some (s.withCore { c with title := value })
  | "desc" => some (s.withCore { c with description := value })
  | "description" => some (s.withCore { c with description := value })
  | "format" => some (s.withCore { c with format := value })
  | "pattern" => some (s.withCore { c with pattern := value })
  | "deprecated" => some (s.withCore { c with deprecated := true })
  | "required" => some (s.withCore { c with nullable := false })
  | "nullable" => some (s.withCore { c with nullable := true })
  | "null" => some (s.withCore { c with nullable := true })
  | "readonly" => some (s.withCore { c with readOnly := true })
  | "writeonly" => some (s.withCore { c with writeOnly := true })
  | "enum" =>
    let enumConstants := splitWithEscape value "|" "\\"
    some (s.withCore
      { c with enum := some ((enumConstants.filter (· ≠ "")).map Val.str) })
  | "minlength" => (parseGoInt value).map fun n => s.withCore { c with minLength := some n }
  | "maxlength" => (parseGoInt value).map fun n => s.withCore { c with maxLength := n }
  | "minitems" => (parseGoInt value).map fun n => s.withCore { c with minItems := some n }
  | "maxitems" => (parseGoInt value).map fun n => s.withCore { c with maxItems := n }
  | "multipleof" => (parseGoInt value).map fun n => s.withCore { c with multipleOf := n }
  | "maximum" => (parseGoInt value).map fun n => s.withCore { c with maximum := some n }
  | "max" => (parseGoInt value).map fun n => s.withCore { c with maximum := some n }
  | "minimum" => (parseGoInt value).map fun n => s.withCore { c with minimum := some n }
  | "min" => (parseGoInt value).map fun n => s.withCore { c with minimum := some n }
  | "exclusivemaximum" =>
    (goParseBool (if value == key then "true" else value)).map fun b =>
      s.withCore { c with exclusiveMaximum := b }
  | "exclusivemax" =>
    (goParseBool (if value == key then "true" else value)).map fun b =>
      s.withCore { c with exclusiveMaximum := b }
  | "exclusiveminimum" =>
    (goParseBool (if value == key then "true" else value)).map fun b =>
      s.withCore { c with exclusiveMinimum := b }
  | "exclusivemin" =>
    (goParseBool (if value == key then "true" else value)).map fun b =>
      s.withCore { c with exclusiveMinimum := b }
  | _ => some s

/-- `ApplyOptions` (part_003): apply each comma-separated (backslash-escaped)
option in order. -/
def applyOptions (s : Schema) (tag : String) : Option Schema :=
  (splitWithEscape tag "," "\\").foldlM applyOption1 s

mutual
/-- `Builder.GetSchema`: return the cached schema or build (and potentially
register) one. -/
def getSchemaB (fuel : Nat) (env : Env) (st : BuildState) (t : Ty) :
    Option (BuildState × Option Nat) :=
  match alookup st.cache t with
  | some h => some (st, some h)
  | none => buildSchemaB fuel env st t true
termination_by (fuel, 1, 0)

/-- `Builder.BuildSchema` (part_003): allocate the node, short-circuit pointer
types through `makeNullable`, copy any registered full/base/custom schema,
promote struct-like and custom-named types into the cache *before* recursing,
fill in the capability probes, then populate by kind. -/
def buildSchemaB (fuel : Nat) (env : Env) (st : BuildState) (t : Ty)
    (addToDocument : Bool) : Option (BuildState × Option Nat) :=
  match fuel with
  | 0 => none
  | fuel' + 1 =>
    let alloc0 := st.alloc Schema.empty
    let st0 := alloc0.1
    let hs := alloc0.2
    if getConcrete t ≠ t then
      match getSchemaB fuel' env st0 (getConcrete t) with
      | none => none
      | some (st1, none) => some (st1, none)
      | some (st1, some hc) =>
        let mn := makeNullable st1 hc
        some (mn.1, some mn.2)
    else
      let isDefined0 := isStructTy t || isNamedType env t
      let source :=
        match alookup st0.fullSchema t with
        | some fullS => (st0.write hs fullS, isDefined0, false)
        | none =>
          match alookup st0.baseSchema t with
          | some overrideS => (st0.write hs overrideS, isDefined0, true)
          | none =>
            match getTypeSchema env t with
            | some (custom, full) => (st0.write hs custom, true, !full)
            | none => (st0, isDefined0, true)
      let st1 := source.1
      let isDefined := source.2.1
      let continueDefining := source.2.2
      let st2 := if isDefined && addToDocument then setSchema st1 t hs else st1
      if !continueDefining then some (st2, some hs)
      else
        let s2 := st2.read hs
        let c2 := s2.core
        let c3 := if c2.enum.isNone then { c2 with enum := getTypeEnums env t } else c2
        let c4 :=
          if c3.exampleVal.isNone then { c3 with exampleVal := getTypeExample env t }
          else c3
        let c5 :=
          if c4.description = "" then { c4 with description := getTypeDescription env t }
          else c4
        let st3 := st2.write hs (s2.withCore c5)
        match t with
        | .func => some (st3, none)
        | .iface => some (st3, some hs)
        | .arrayN n elemT =>
          let s3 := st3.read hs
          let c := s3.core
          let st3a := st3.write hs (s3.withCore
            { c with type := mergeValueOpt c.type (some DataType.array),
                     minItems := mergeValueOpt c.minItems (some (n : Int)),
                     maxItems := mergeValueInt c.maxItems (n : Int) })
          match getSchemaB fuel' env st3a elemT with
          | none => none
          | some (st4, elemH) =>
            let s4 := st4.read hs
            let s5 := s4.withItems
              (match elemH with
               | none => s4.items
               | some he => some (st4.read he))
            some (st4.write hs s5, some hs)
        | .slice elemT =>
          let s3 := st3.read hs
          let st3a := st3.write hs (s3.withCore
            { s3.core with type := mergeValueOpt s3.core.type (some DataType.array) })
          match getSchemaB fuel' env st3a elemT with
          | none => none
          | some (st4, elemH) =>
            let s4 := st4.read hs
            let s5 := s4.withItems
              (match elemH with
               | none => s4.items
               | some he => some (st4.read he))
            some (st4.write hs s5, some hs)
        | .mapOf elemT =>
          let s3 := st3.read hs
          let st3a := st3.write hs (s3.withCore
            { s3.core with type := mergeValueOpt s3.core.type (some DataType.object) })
          match getSchemaB fuel' env st3a elemT with
          | none => none
          | some (st4, elemH) =>
            let s4 := st4.read hs
            let s5 := s4.withAdditionalProperties (some (.ofSchema
              (match elemH with
               | none => none
               | some he => some (st4.read he))))
            some (st4.write hs s5, some hs)
        | .string =>
          let s3 := st3.read hs
          some (st3.write hs (s3.withCore
            { s3.core with type := mergeValueOpt s3.core.type (some DataType.string) }),
            some hs)
        | .bool =>
          let s3 := st3.read hs
          some (st3.write hs (s3.withCore
            { s3.core with type := mergeValueOpt s3.core.type (some DataType.boolean) }),
            some hs)
        | .float =>
          let s3 := st3.read hs
          some (st3.write hs (s3.withCore
            { s3.core with type := mergeValueOpt s3.core.type (some DataType.number) }),
            some hs)
        | .int =>
          let s3 := st3.read hs
          some (st3.write hs (s3.withCore
            { s3.core with type := mergeValueOpt s3.core.type (some DataType.integer) }),
            some hs)
        | .ptr _ => some (st3, some hs)
        | .defined nm =>
          let sd := (alookup env.structs nm).getD ⟨[]⟩
          let s3 := st3.read hs
          let c := s3.core
          let cB := { c with type := mergeValueOpt c.type (some DataType.object) }
          let cC := if cB.required = none then { cB with required := some [] } else cB
          let st3a := st3.write hs (s3.withCore cC)
          if (st3a.read hs).properties.isSome then some (st3a, some hs)
          else
            let s3b := st3a.read hs
            let st3b := st3a.write hs
              ((s3b.withProperties (some [])).withAdditionalProperties
                (some (.ofBool false)))
            match addPropertiesB fuel' env st3b hs false sd.fields with
            | none => none
            | some st4 => some (st4, some hs)
termination_by (fuel, 0, 0)

/-- `Builder.addProperties` (part_003): walk the struct fields, splicing
embedded fields in place, building each named property's schema, applying the
nullable/optional coupling, the nullable wrapper, the api-tag options, and
finally storing the property (as a reference when promoted) and the required
marker. -/
def addPropertiesB (fuel : Nat) (env : Env) (st : BuildState) (objH : Nat)
    (parentOptional : Bool) (fields : List FieldDef) : Option BuildState :=
  match fuel with
  | 0 => none
  | fuel' + 1 =>
    match fields with
    | [] => some st
    | fd :: rest =>
      let jsonOpts := getJSONOptions fd.name fd.jsonTag fd.exported
      let property := jsonOpts.1
      let optional0 := jsonOpts.2.1 || parentOptional
      if jsonOpts.2.2 then addPropertiesB (fuel' + 1) env st objH parentOptional rest
      else if fd.anonymous then
        match addPropertiesB fuel' env st objH optional0 (structFieldsOf env fd.ty) with
        | none => none
        | some st1 => addPropertiesB (fuel' + 1) env st1 objH parentOptional rest
      else
        match getSchemaB fuel' env st fd.ty with
        | none => none
        | some (st1, none) => addPropertiesB (fuel' + 1) env st1 objH parentOptional rest
        | some (st1, some hprop) =>
          let nullable0 := (st1.read hprop).core.nullable
          let nullable1 := if optional0 && st1.optionalIsNullable then true else nullable0
          let optional1 := if nullable1 && st1.nullableIsOptional then true else optional0
          let wrapped :=
            if nullable1 && !builderIsNullable (st1.read hprop) then makeNullable st1 hprop
            else (st1, hprop)
          let st2 := wrapped.1
          let hprop2 := wrapped.2
          let tagged :=
            if fd.apiTag ≠ "" then
              let refWrapped :=
                if (st2.read hprop2).core.named ≠ none then
                  st2.alloc (Schema.mk {} [(st2.read hprop2).asReference] [] []
                    none none none none)
                else (st2, hprop2)
              match applyOptions (refWrapped.1.read refWrapped.2) fd.apiTag with
              | none => none
              | some s' => some (refWrapped.1.write refWrapped.2 s', refWrapped.2)
            else some (st2, hprop2)
          match tagged with
          | none => none
          | some (st3, hprop3) =>
            let finalSchema := (st3.read hprop3).asReference
            let obj := st3.read objH
            let obj2 := obj.withProperties
              (some (aset (obj.properties.getD []) property finalSchema))
            let obj3 :=
              if !optional1 then
                obj2.withCore
                  { obj2.core with
                      required := some ((obj2.core.required.getD []) ++ [property]) }
              else obj2
            addPropertiesB (fuel' + 1) env (st3.write objH obj3) objH parentOptional rest
termination_by (fuel, 2, fields.length)
end

/-! ## Cache evolution of the builder

The claim-C8 theorems quantify over every builder state, so the following
development proves how `getSchemaB`/`buildSchemaB`/`addPropertiesB` evolve the
type-keyed schema cache: existing entries are never removed or rebound, and
new entries only ever appear for promotable types (struct-like, custom-named,
or carrying a custom schema hook), since `setSchema` runs exactly once per
cache miss before any recursion. -/

def Promotable (env : Env) (t : Ty) : Bool :=
  isStructTy t || isNamedType env t || (getTypeSchema env t).isSome

def CacheEvolves (env : Env) (c c' : List (Ty × Nat)) : Prop :=
  (∀ k h, alookup c k = some h → alookup c' k = some h)
    ∧ (∀ k h, alookup c' k = some h → alookup c k = some h ∨ Promotable env k = true)

theorem cacheEvolves_refl (env : Env) (c : List (Ty × Nat)) : CacheEvolves env c c :=
  ⟨fun _ _ hk => hk, fun _ _ hk => Or.inl hk⟩

theorem cacheEvolves_trans {env : Env} {c1 c2 c3 : List (Ty × Nat)}
    (h12 : CacheEvolves env c1 c2) (h23 : CacheEvolves env c2 c3) :
    CacheEvolves env c1 c3 := by
  refine ⟨fun k h hk => h23.1 k h (h12.1 k h hk), fun k h hk => ?_⟩
  rcases h23.2 k h hk with hk2 | hp
  · exact h12.2 k h hk2
  · exact Or.inr hp

theorem alookup_aset_self {α β : Type} [DecidableEq α] (l : List (α × β)) (k : α) (v : β) :
    alookup (aset l k v) k = some v := by
  induction l with
  | nil => simp [aset, alookup]
  | cons p rest ih =>
    by_cases hk : p.1 = k
    · simp [aset, hk, alookup]
    · simp [aset, hk, alookup, ih, Ne.symm hk]

theorem alookup_aset_ne {α β : Type} [DecidableEq α] (l : List (α × β)) (k k' : α) (v : β)
    (hne : k' ≠ k) : alookup (aset l k v) k' = alookup l k' := by
  induction l with
  | nil => simp [aset, alookup, Ne.symm hne]
  | cons p rest ih =>
    by_cases hk : p.1 = k
    · subst hk
      simp [aset, alookup, Ne.symm hne]
    · by_cases hk' : p.1 = k'
      · simp [aset, hk, alookup, hk', hne]
      · simp [aset, hk, alookup, hk', ih]

theorem cacheEvolves_aset {env : Env} {c : List (Ty × Nat)} {t : Ty} {h : Nat}
    (hnone : alookup c t = none) (hp : Promotable env t = true) :
    CacheEvolves env c (aset c t h) := by
  constructor
  · intro k hk hlk
    by_cases hkt : k = t
    · subst hkt; rw [hnone] at hlk; cases hlk
    · rw [alookup_aset_ne _ _ _ _ hkt]; exact hlk
  · intro k hk hlk
    by_cases hkt : k = t
    · subst hkt; exact Or.inr hp
    · rw [alookup_aset_ne _ _ _ _ hkt] at hlk; exact Or.inl hlk

theorem makeNullable_cache (st : BuildState) (h : Nat) :
    ((makeNullable st h).1).cache = st.cache := by
  simp only [makeNullable]
  split
  · rfl
  · split <;> rfl


theorem cacheEvolves_makeNullable_left {env : Env} {c : List (Ty × Nat)}
    {st1 : BuildState} {hp : Nat} (hce : CacheEvolves env c st1.cache) :
    CacheEvolves env c ((makeNullable st1 hp).1).cache := by
  rw [makeNullable_cache]
  exact hce

theorem promotable_of_cond {env : Env} {t : Ty} (b : Bool)
    (h : ((isStructTy t || isNamedType env t) && b) = true) : Promotable env t = true := by
  simp only [Bool.and_eq_true] at h
  simp [Promotable, h.1]

theorem promotable_of_some {env : Env} {t : Ty} {p : Schema × Bool}
    (h : getTypeSchema env t = some p) : Promotable env t = true := by
  simp [Promotable, h]



theorem cacheEvolves_setSchemaIte {env : Env} {st st1 : BuildState} {t : Ty} {hs : Nat}
    {c : Bool} (hmiss : alookup st.cache t = none) (hc1 : st1.cache = st.cache)
    (hp : c = true → Promotable env t = true) :
    CacheEvolves env st.cache (if c = true then setSchema st1 t hs else st1).cache := by
  split
  next hc =>
    show CacheEvolves env st.cache (aset st1.cache t hs)
    rw [hc1]
    exact cacheEvolves_aset hmiss (hp hc)
  next hc =>
    show CacheEvolves env st.cache st1.cache
    rw [hc1]
    exact cacheEvolves_refl env _



theorem defined_aux (fuel2 : Nat) {env : Env} {c : List (Ty × Nat)} {st3a st3b : BuildState}
    {hs : Nat} {fds : List FieldDef} {r : BuildState × Option Nat}
    (ihadd : ∀ env objH po fds st r2, addPropertiesB fuel2 env st objH po fds = some r2 →
        CacheEvolves env st.cache r2.cache)
    (hca : CacheEvolves env c st3a.cache) (hcb : st3b.cache = st3a.cache)
    (h : (if (st3a.read hs).properties.isSome = true then some (st3a, some hs)
          else match addPropertiesB fuel2 env st3b hs false fds with
               | none => none
               | some st4 => some (st4, some hs)) = some r) :
    CacheEvolves env c r.1.cache := by
  split at h
  · cases h
    exact hca
  · split at h
    case h_1 => exact Option.noConfusion h
    case h_2 st4 heqP =>
      cases h
      refine cacheEvolves_trans ?_ (ihadd _ _ _ _ _ _ heqP)
      rw [hcb]
      exact hca


set_option maxHeartbeats 1600000 in
theorem builder_cache_evolves (fuel : Nat) :
    (∀ env st t r, getSchemaB fuel env st t = some r →
        CacheEvolves env st.cache r.1.cache)
    ∧ (∀ env st t atd r, alookup st.cache t = none →
        buildSchemaB fuel env st t atd = some r →
        CacheEvolves env st.cache r.1.cache)
    ∧ (∀ env objH po fds st r, addPropertiesB fuel env st objH po fds = some r →
        CacheEvolves env st.cache r.cache) := by
  induction fuel using Nat.strong_induction_on with
  | _ fuel ih =>
    cases fuel with
    | zero =>
      refine ⟨?_, ?_, ?_⟩
      · intro env st t r h
        rw [getSchemaB] at h
        split at h
        · cases h
          exact cacheEvolves_refl env _
        · rw [buildSchemaB] at h
          exact Option.noConfusion h
      · intro env st t atd r hmiss h
        rw [buildSchemaB] at h
        exact Option.noConfusion h
      · intro env objH po fds st r h
        rw [addPropertiesB] at h
        exact Option.noConfusion h
    | succ fuel' =>
      have ihf := ih fuel' (Nat.lt_succ_self fuel')
      have hadd : ∀ env objH po fds st r,
          addPropertiesB (fuel' + 1) env st objH po fds = some r →
          CacheEvolves env st.cache r.cache := by
        intro env objH po fds
        induction fds with
        | nil =>
          intro st r h
          rw [addPropertiesB] at h
          cases h
          exact cacheEvolves_refl env _
        | cons fd rest ihfds =>
          intro st r h
          rw [addPropertiesB] at h
          simp only [] at h
          split at h
          case isTrue => exact ihfds _ _ h
          case isFalse =>
            split at h
            case isTrue =>
              split at h
              case h_1 => exact Option.noConfusion h
              case h_2 st1 heqA =>
                exact cacheEvolves_trans (ihf.2.2 _ _ _ _ _ _ heqA) (ihfds _ _ h)
            case isFalse =>
              split at h
              case h_1 => exact Option.noConfusion h
              case h_2 st1 heq =>
                exact cacheEvolves_trans (ihf.1 _ _ _ _ heq) (ihfds _ _ h)
              case h_3 st1 hprop heq =>
                split at h
                case h_1 => exact Option.noConfusion h
                case h_2 st3 hp3 heqT =>
                  have hc3 : st3.cache = st1.cache := by
                    repeat' split at heqT
                    all_goals
                      first
                        | exact Option.noConfusion heqT
                        | (cases heqT; rfl)
                        | (cases heqT; exact makeNullable_cache _ _)
                  refine cacheEvolves_trans ?_ (ihfds _ _ h)
                  have hst := ihf.1 _ _ _ _ heq
                  show CacheEvolves env st.cache st3.cache
                  rw [hc3]
                  exact hst
      have hbuild : ∀ env st t atd r, alookup st.cache t = none →
          buildSchemaB (fuel' + 1) env st t atd = some r →
          CacheEvolves env st.cache r.1.cache := by
        intro env st t atd r hmiss h
        rw [buildSchemaB] at h
        split at h
        · split at h
          case h_1 => exact Option.noConfusion h
          case h_2 st1 heq =>
            cases h
            exact ihf.1 env (st.alloc Schema.empty).1 _ _ heq
          case h_3 st1 hc heq =>
            cases h
            exact cacheEvolves_makeNullable_left (ihf.1 env (st.alloc Schema.empty).1 _ _ heq)
        · split at h
          case h_1 fullS heqF =>
            simp only [Bool.not_false, eq_self_iff_true, if_true] at h
            cases h
            exact cacheEvolves_setSchemaIte hmiss rfl (fun hc => promotable_of_cond _ hc)
          case h_2 heqF =>
            split at h
            case h_1 overrideS heqB =>
              split at h
              case h_1 =>
                simp only [Bool.not_true, Bool.not_false, Bool.false_eq_true, eq_self_iff_true, if_true, if_false] at h
                cases h
                exact cacheEvolves_setSchemaIte hmiss rfl (fun hc => promotable_of_cond _ hc)
              case h_2 =>
                simp only [Bool.not_true, Bool.not_false, Bool.false_eq_true, eq_self_iff_true, if_true, if_false] at h
                cases h
                exact cacheEvolves_setSchemaIte hmiss rfl (fun hc => promotable_of_cond _ hc)
              case h_3 n elemT =>
                simp only [Bool.not_true, Bool.not_false, Bool.false_eq_true, eq_self_iff_true, if_true, if_false] at h
                split at h
                case h_1 => exact Option.noConfusion h
                case h_2 st4 elemH heqE =>
                  cases h
                  refine cacheEvolves_trans ?_ (ihf.1 _ _ _ (st4, elemH) heqE)
                  exact cacheEvolves_setSchemaIte hmiss rfl (fun hc => promotable_of_cond _ hc)
              case h_4 elemT =>
                simp only [Bool.not_true, Bool.not_false, Bool.false_eq_true, eq_self_iff_true, if_true, if_false] at h
                split at h
                case h_1 => exact Option.noConfusion h
                case h_2 st4 elemH heqE =>
                  cases h
                  refine cacheEvolves_trans ?_ (ihf.1 _ _ _ (st4, elemH) heqE)
                  exact cacheEvolves_setSchemaIte hmiss rfl (fun hc => promotable_of_cond _ hc)
              case h_5 elemT =>
                simp only [Bool.not_true, Bool.not_false, Bool.false_eq_true, eq_self_iff_true, if_true, if_false] at h
                split at h
                case h_1 => exact Option.noConfusion h
                case h_2 st4 elemH heqE =>
                  cases h
                  refine cacheEvolves_trans ?_ (ihf.1 _ _ _ (st4, elemH) heqE)
                  exact cacheEvolves_setSchemaIte hmiss rfl (fun hc => promotable_of_cond _ hc)
              case h_6 =>
                simp only [Bool.not_true, Bool.not_false, Bool.false_eq_true, eq_self_iff_true, if_true, if_false] at h
                cases h
                exact cacheEvolves_setSchemaIte hmiss rfl (fun hc => promotable_of_cond _ hc)
              case h_7 =>
                simp only [Bool.not_true, Bool.not_false, Bool.false_eq_true, eq_self_iff_true, if_true, if_false] at h
                cases h
                exact cacheEvolves_setSchemaIte hmiss rfl (fun hc => promotable_of_cond _ hc)
              case h_8 =>
                simp only [Bool.not_true, Bool.not_false, Bool.false_eq_true, eq_self_iff_true, if_true, if_false] at h
                cases h
                exact cacheEvolves_setSchemaIte hmiss rfl (fun hc => promotable_of_cond _ hc)
              case h_9 =>
                simp only [Bool.not_true, Bool.not_false, Bool.false_eq_true, eq_self_iff_true, if_true, if_false] at h
                cases h
                exact cacheEvolves_setSchemaIte hmiss rfl (fun hc => promotable_of_cond _ hc)
              case h_10 x =>
                simp only [Bool.not_true, Bool.not_false, Bool.false_eq_true, eq_self_iff_true, if_true, if_false] at h
                cases h
                exact cacheEvolves_setSchemaIte hmiss rfl (fun hc => promotable_of_cond _ hc)
              case h_11 nm =>
                refine defined_aux fuel' ihf.2.2 ?_ ?_ h
                · exact cacheEvolves_setSchemaIte hmiss rfl (fun hc => promotable_of_cond _ hc)
                · rfl
            case h_2 heqB =>
              split at h
              case h_1 custom full heqC =>
                cases full
                ·
                  split at h
                  case h_1 =>
                    simp only [Bool.not_true, Bool.not_false, Bool.false_eq_true, eq_self_iff_true, if_true, if_false] at h
                    cases h
                    exact cacheEvolves_setSchemaIte hmiss rfl (fun _ => promotable_of_some heqC)
                  case h_2 =>
                    simp only [Bool.not_true, Bool.not_false, Bool.false_eq_true, eq_self_iff_true, if_true, if_false] at h
                    cases h
                    exact cacheEvolves_setSchemaIte hmiss rfl (fun _ => promotable_of_some heqC)
                  case h_3 n elemT =>
                    simp only [Bool.not_true, Bool.not_false, Bool.false_eq_true, eq_self_iff_true, if_true, if_false] at h
                    split at h
                    case h_1 => exact Option.noConfusion h
                    case h_2 st4 elemH heqE =>
                      cases h
                      refine cacheEvolves_trans ?_ (ihf.1 _ _ _ (st4, elemH) heqE)
                      exact cacheEvolves_setSchemaIte hmiss rfl (fun _ => promotable_of_some heqC)
                  case h_4 elemT =>
                    simp only [Bool.not_true, Bool.not_false, Bool.false_eq_true, eq_self_iff_true, if_true, if_false] at h
                    split at h
                    case h_1 => exact Option.noConfusion h
                    case h_2 st4 elemH heqE =>
                      cases h
                      refine cacheEvolves_trans ?_ (ihf.1 _ _ _ (st4, elemH) heqE)
                      exact cacheEvolves_setSchemaIte hmiss rfl (fun _ => promotable_of_some heqC)
                  case h_5 elemT =>
                    simp only [Bool.not_true, Bool.not_false, Bool.false_eq_true, eq_self_iff_true, if_true, if_false] at h
                    split at h
                    case h_1 => exact Option.noConfusion h
                    case h_2 st4 elemH heqE =>
                      cases h
                      refine cacheEvolves_trans ?_ (ihf.1 _ _ _ (st4, elemH) heqE)
                      exact cacheEvolves_setSchemaIte hmiss rfl (fun _ => promotable_of_some heqC)
                  case h_6 =>
                    simp only [Bool.not_true, Bool.not_false, Bool.false_eq_true, eq_self_iff_true, if_true, if_false] at h
                    cases h
                    exact cacheEvolves_setSchemaIte hmiss rfl (fun _ => promotable_of_some heqC)
                  case h_7 =>
                    simp only [Bool.not_true, Bool.not_false, Bool.false_eq_true, eq_self_iff_true, if_true, if_false] at h
                    cases h
                    exact cacheEvolves_setSchemaIte hmiss rfl (fun _ => promotable_of_some heqC)
                  case h_8 =>
                    simp only [Bool.not_true, Bool.not_false, Bool.false_eq_true, eq_self_iff_true, if_true, if_false] at h
                    cases h
                    exact cacheEvolves_setSchemaIte hmiss rfl (fun _ => promotable_of_some heqC)
                  case h_9 =>
                    simp only [Bool.not_true, Bool.not_false, Bool.false_eq_true, eq_self_iff_true, if_true, if_false] at h
                    cases h
                    exact cacheEvolves_setSchemaIte hmiss rfl (fun _ => promotable_of_some heqC)
                  case h_10 x =>
                    simp only [Bool.not_true, Bool.not_false, Bool.false_eq_true, eq_self_iff_true, if_true, if_false] at h
                    cases h
                    exact cacheEvolves_setSchemaIte hmiss rfl (fun _ => promotable_of_some heqC)
                  case h_11 nm =>
                    refine defined_aux fuel' ihf.2.2 ?_ ?_ h
                    · exact cacheEvolves_setSchemaIte hmiss rfl (fun _ => promotable_of_some heqC)
                    · rfl
                ·
                  simp only [Bool.not_true, Bool.not_false, Bool.false_eq_true, eq_self_iff_true, if_true, if_false] at h
                  cases h
                  exact cacheEvolves_setSchemaIte hmiss rfl (fun _ => promotable_of_some heqC)
              case h_2 heqC =>
                split at h
                case h_1 =>
                  simp only [Bool.not_true, Bool.not_false, Bool.false_eq_true, eq_self_iff_true, if_true, if_false] at h
                  cases h
                  exact cacheEvolves_setSchemaIte hmiss rfl (fun hc => promotable_of_cond _ hc)
                case h_2 =>
                  simp only [Bool.not_true, Bool.not_false, Bool.false_eq_true, eq_self_iff_true, if_true, if_false] at h
                  cases h
                  exact cacheEvolves_setSchemaIte hmiss rfl (fun hc => promotable_of_cond _ hc)
                case h_3 n elemT =>
                  simp only [Bool.not_true, Bool.not_false, Bool.false_eq_true, eq_self_iff_true, if_true, if_false] at h
                  split at h
                  case h_1 => exact Option.noConfusion h
                  case h_2 st4 elemH heqE =>
                    cases h
                    refine cacheEvolves_trans ?_ (ihf.1 _ _ _ (st4, elemH) heqE)
                    exact cacheEvolves_setSchemaIte hmiss rfl (fun hc => promotable_of_cond _ hc)
                case h_4 elemT =>
                  simp only [Bool.not_true, Bool.not_false, Bool.false_eq_true, eq_self_iff_true, if_true, if_false] at h
                  split at h
                  case h_1 => exact Option.noConfusion h
                  case h_2 st4 elemH heqE =>
                    cases h
                    refine cacheEvolves_trans ?_ (ihf.1 _ _ _ (st4, elemH) heqE)
                    exact cacheEvolves_setSchemaIte hmiss rfl (fun hc => promotable_of_cond _ hc)
                case h_5 elemT =>
                  simp only [Bool.not_true, Bool.not_false, Bool.false_eq_true, eq_self_iff_true, if_true, if_false] at h
                  split at h
                  case h_1 => exact Option.noConfusion h
                  case h_2 st4 elemH heqE =>
                    cases h
                    refine cacheEvolves_trans ?_ (ihf.1 _ _ _ (st4, elemH) heqE)
                    exact cacheEvolves_setSchemaIte hmiss rfl (fun hc => promotable_of_cond _ hc)
                case h_6 =>
                  simp only [Bool.not_true, Bool.not_false, Bool.false_eq_true, eq_self_iff_true, if_true, if_false] at h
                  cases h
                  exact cacheEvolves_setSchemaIte hmiss rfl (fun hc => promotable_of_cond _ hc)
                case h_7 =>
                  simp only [Bool.not_true, Bool.not_false, Bool.false_eq_true, eq_self_iff_true, if_true, if_false] at h
                  cases h
                  exact cacheEvolves_setSchemaIte hmiss rfl (fun hc => promotable_of_cond _ hc)
                case h_8 =>
                  simp only [Bool.not_true, Bool.not_false, Bool.false_eq_true, eq_self_iff_true, if_true, if_false] at h
                  cases h
                  exact cacheEvolves_setSchemaIte hmiss rfl (fun hc => promotable_of_cond _ hc)
                case h_9 =>
                  simp only [Bool.not_true, Bool.not_false, Bool.false_eq_true, eq_self_iff_true, if_true, if_false] at h
                  cases h
                  exact cacheEvolves_setSchemaIte hmiss rfl (fun hc => promotable_of_cond _ hc)
                case h_10 x =>
                  simp only [Bool.not_true, Bool.not_false, Bool.false_eq_true, eq_self_iff_true, if_true, if_false] at h
                  cases h
                  exact cacheEvolves_setSchemaIte hmiss rfl (fun hc => promotable_of_cond _ hc)
                case h_11 nm =>
                  refine defined_aux fuel' ihf.2.2 ?_ ?_ h
                  · exact cacheEvolves_setSchemaIte hmiss rfl (fun hc => promotable_of_cond _ hc)
                  · rfl
      refine ⟨?_, hbuild, hadd⟩
      intro env st t r h
      rw [getSchemaB] at h
      split at h
      · cases h
        exact cacheEvolves_refl env _
      · next hmiss => exact hbuild env st t true r hmiss h

theorem getSchemaB_cache_hit (fuel : Nat) (env : Env) (st : BuildState) (t : Ty) (hdl : Nat)
    (hc : alookup st.cache t = some hdl) : getSchemaB fuel env st t = some (st, some hdl) := by
  rw [getSchemaB, hc]

theorem ret_aux (t : Ty) {st2 : BuildState} {hs : Nat} {r : BuildState × Option Nat}
    (h : (some (st2, some hs) : Option (BuildState × Option Nat)) = some r)
    (hca : alookup st2.cache t = some hs) :
    alookup r.1.cache t = some hs ∧ r.2 = some hs := by
  cases h
  exact ⟨hca, rfl⟩

theorem defined_aux2 (fuel2 : Nat) (t : Ty) {env : Env} {st3a st3b : BuildState}
    {hs : Nat} {fds : List FieldDef} {r : BuildState × Option Nat}
    (h : (if (st3a.read hs).properties.isSome = true then some (st3a, some hs)
          else match addPropertiesB fuel2 env st3b hs false fds with
               | none => none
               | some st4 => some (st4, some hs)) = some r)
    (hca : alookup st3a.cache t = some hs)
    (hcb : st3b.cache = st3a.cache)
    (hmono : ∀ env objH po fds st r2, addPropertiesB fuel2 env st objH po fds = some r2 →
        CacheEvolves env st.cache r2.cache) :
    alookup r.1.cache t = some hs ∧ r.2 = some hs := by
  split at h
  · cases h
    exact ⟨hca, rfl⟩
  · split at h
    case h_1 => exact Option.noConfusion h
    case h_2 st4 heqP =>
      cases h
      refine ⟨(hmono _ _ _ _ _ _ heqP).1 t hs ?_, rfl⟩
      rw [hcb]
      exact hca

set_option maxHeartbeats 1600000 in
theorem getSchemaB_defined_caches (fuel : Nat) (env : Env) (st : BuildState) (nm : String)
    (st' : BuildState) (hdl : Nat)
    (hmiss : alookup st.cache (Ty.defined nm) = none)
    (h : getSchemaB fuel env st (Ty.defined nm) = some (st', some hdl)) :
    alookup st'.cache (Ty.defined nm) = some hdl := by
  rw [getSchemaB, hmiss] at h
  simp only [] at h
  cases fuel with
  | zero =>
    rw [buildSchemaB] at h
    exact Option.noConfusion h
  | succ fuel' =>
    rw [buildSchemaB] at h
    split at h
    · next hcon => exact absurd rfl hcon
    · split at h
      case h_1 fullS heqF =>
        obtain ⟨h1, h2⟩ := ret_aux (Ty.defined nm) h (alookup_aset_self _ _ _)
        injection h2 with h2
        rw [h2]
        exact h1
      case h_2 heqF =>
        split at h
        case h_1 overrideS heqB =>
          obtain ⟨h1, h2⟩ := defined_aux2 fuel' (Ty.defined nm) h (alookup_aset_self _ _ _) rfl
            (builder_cache_evolves fuel').2.2
          injection h2 with h2
          rw [h2]
          exact h1
        case h_2 heqB =>
          split at h
          case h_1 custom full heqC =>
            cases full
            · obtain ⟨h1, h2⟩ := defined_aux2 fuel' (Ty.defined nm) h (alookup_aset_self _ _ _) rfl
                (builder_cache_evolves fuel').2.2
              injection h2 with h2
              rw [h2]
              exact h1
            · obtain ⟨h1, h2⟩ := ret_aux (Ty.defined nm) h (alookup_aset_self _ _ _)
              injection h2 with h2
              rw [h2]
              exact h1
          case h_2 heqC =>
            obtain ⟨h1, h2⟩ := defined_aux2 fuel' (Ty.defined nm) h (alookup_aset_self _ _ _) rfl
              (builder_cache_evolves fuel').2.2
            injection h2 with h2
            rw [h2]
            exact h1

theorem getSchemaB_unpromotable (fuel : Nat) (env : Env) (st : BuildState) (t : Ty)
    (r : BuildState × Option Nat) (hp : Promotable env t = false)
    (h : getSchemaB fuel env st t = some r) :
    alookup r.1.cache t = alookup st.cache t := by
  have hev := (builder_cache_evolves fuel).1 env st t r h
  rcases hst : alookup st.cache t with _ | h0
  · rcases hq : alookup r.1.cache t with _ | hdl
    · rfl
    · rcases hev.2 t hdl hq with hs | hpr
      · rw [hst] at hs
        exact Option.noConfusion hs
      · rw [hpr] at hp
        exact Bool.noConfusion hp
  · rw [hev.1 t h0 hst]

/-! ## Concrete instances used by the claim theorems -/

/-- A validation pass with no per-type options configured and empty
pattern/format registries. -/
def defaultVctx : Vctx := ⟨fun _ => {}, fun _ => none, fun _ => none⟩

/-- Schema `{multipleOf: n}`. -/
def multipleOfSchema (n : Int) : Schema := schemaOfCore { multipleOf := n }

/-- Schema `{oneOf:[{multipleOf:2},{multipleOf:3}]}`. -/
def oneOf23Schema : Schema :=
  Schema.mk {} [] [multipleOfSchema 2, multipleOfSchema 3] [] none none none none

/-- Schema `{required:["X"]}` (its properties map is nil). -/
def requiredXSchema : Schema :=
  Schema.mk { required := some ["X"] } [] [] [] none none none none

/-- Schema `{required:["X"], properties:{}}` (a present, empty properties
map). -/
def requiredXPropsSchema : Schema :=
  Schema.mk { required := some ["X"] } [] [] [] none none (some []) none

/-- The Go value `struct{X *int}{X: nil}`. -/
def structXNull : Val := .strct [.mk "X" "" false true .null]

/-- Schema `{deprecated: true}`. -/
def deprecatedSchema : Schema := schemaOfCore { deprecated := true }

/-- The self-referential type `type A struct { Child *A `json:"child"` }`. -/
def selfRefEnv : Env :=
  { structs := [("A", ⟨[⟨"Child", "child", "", false, true, .ptr (.defined "A")⟩]⟩)] }

/-- Building `A` from an empty builder. -/
def selfRefRun : Option (BuildState × Option Nat) :=
  getSchemaB 10 selfRefEnv {} (.defined "A")

/-- Building the unpromoted scalar type `int` from an empty builder. -/
def intRun1 : Option (BuildState × Option Nat) := getSchemaB 10 {} {} .int

/-- The empty struct type `type B struct{}`. -/
def structBEnv : Env := { structs := [("B", ⟨[]⟩)] }

/-- Building `B` from an empty builder. -/
def structBRun : Option (BuildState × Option Nat) :=
  getSchemaB 10 structBEnv {} (.defined "B")

/-- The builder state `structBRun` produces: the promoted empty-struct schema
at handle 0 and its cache entry. -/
def structBState : BuildState :=
  { heap := [Schema.mk
      { named := some 0, type := some DataType.object, required := some [] }
      [] [] [] none none (some []) (some (.ofBool false))],
    cache := [(Ty.defined "B", 0)] }

/-- A builder with a registered base schema for `int` carrying exactly one
`allOf` entry (`SetBaseSchema[int](&Schema{AllOf: []Schema{{Type: "string"}}})`). -/
def c6BaseState : BuildState :=
  { baseSchema := [(.int,
      Schema.mk {} [schemaOfCore { type := some DataType.string }] [] []
        none none none none)] }

/-- Building the pointer type `*int` against `c6BaseState`. -/
def c6Run : Option (BuildState × Option Nat) :=
  getSchemaB 10 {} c6BaseState (.ptr .int)

/-- A one-schema arena used to witness the `makeNullable` characterization. -/
def c6WitnessState : BuildState := { heap := [Schema.empty] }

/-! ## Arena access lemmas -/

/-- Reading a fresh allocation yields the allocated schema. -/
theorem read_alloc_new (st : BuildState) (s : Schema) :
    (st.alloc s).1.read (st.alloc s).2 = s := by
  simp [BuildState.alloc, BuildState.read, List.getD]

/-- Allocation leaves existing entries unchanged. -/
theorem read_alloc_old (st : BuildState) (s : Schema) (h : Nat)
    (hlt : h < st.heap.length) : (st.alloc s).1.read h = st.read h := by
  simp [BuildState.alloc, BuildState.read, List.getD, List.getElem?_append, hlt]

/-- Reading back a write through the same handle yields the written schema. -/
theorem read_write_at (st : BuildState) (h : Nat) (s : Schema)
    (hlt : h < st.heap.length) : (st.write h s).read h = s := by
  simp [BuildState.write, BuildState.read, List.getD, List.getElem?_set, hlt]

/-! ## Claim theorems -/

unseal splitRuns in
/-- Claim C9 (confirmed): binding the raw pairs
`[("items[0][name]","a"), ("items[1][name]","b")]` produces a value tree whose
root object holds an `items` array of length two whose elements are objects
with property `name` equal to `"a"` and `"b"`; keys are split on `.` and
bracket pairs with the trailing `]` trimmed. -/
theorem c9_bind_items_pairs :
    buildQueryTree [("items[0][name]", "a"), ("items[1][name]", "b")]
      = some (QueryNode.mk
          [("items", QueryNode.mk []
              [some (QueryNode.mk [("name", QueryNode.mk [] [] (some "a") .value)]
                 [] none .object),
               some (QueryNode.mk [("name", QueryNode.mk [] [] (some "b") .value)]
                 [] none .object)]
              none .slice)]
          [] none .object)
      ∧ splitQueryKey "items[0][name]" = ["items", "0", "name"] :=
  ⟨rfl, rfl⟩

unseal splitRuns in
/-- Claim C5 (code bug): the claim says only a segment parsing as a
*non-negative* integer is treated as an array index and that tree building is
total, but `strconv.Atoi` also accepts `"-1"`, the code then takes the array
branch and indexes `node.arr[-1]`, an out-of-range panic — binding the single
pair `("items[-1]", "x")` faults instead of performing an object field
access. -/
theorem c5_negative_segment_faults :
    splitQueryKey "items[-1]" = ["items", "-1"]
      ∧ parseGoInt "-1" = some (-1)
      ∧ buildQueryTree [("items[-1]", "x")] = none :=
  ⟨rfl, rfl, rfl⟩

/-- Claim C4 (corrected, counterexample): a node made an array by a first
numeric access is re-tagged as an object by a later non-numeric access — the
kind is not stable after the first access. -/
theorem c4_kind_not_stable :
    ((qset (QueryNode.mk [] [] none .unspecified) ["0"] "x").map QueryNode.kind
        = some QueryNodeKind.slice)
      ∧ (((qset (QueryNode.mk [] [] none .unspecified) ["0"] "x").bind
            fun t => qset t ["a"] "y").map QueryNode.kind
          = some QueryNodeKind.object) :=
  ⟨rfl, rfl⟩

/-- Claim C4 (amended): `get` re-tags the node's kind on *every* access, so a
node's kind after a successful access is determined by the shape of that
(most recent) segment — numeric segments make it an array, non-numeric ones an
object — regardless of any earlier accesses. -/
theorem c4_kind_follows_last_access (node r : QueryNode) (seg : String)
    (rest : List String) (v : String) (h : qset node (seg :: rest) v = some r) :
    r.kind = if (parseGoInt seg).isSome then QueryNodeKind.slice
             else QueryNodeKind.object := by
  cases hp : parseGoInt seg with
  | none =>
    simp only [qset, hp] at h
    repeat' split at h
    all_goals
      first
      | (simp only [Option.some.injEq] at h
         subst h
         simp [hp, QueryNode.kind])
      | simp at h
  | some i =>
    simp only [qset, hp] at h
    repeat' split at h
    all_goals
      first
      | (simp only [Option.some.injEq] at h
         subst h
         simp [hp, QueryNode.kind])
      | simp at h

/-- Witness for the amended C4 theorem at the concrete access `get "0"` on a
fresh node. -/
theorem c4_kind_follows_last_access_witness :
    (QueryNode.mk [] [some (QueryNode.mk [] [] (some "x") .value)] none .slice).kind
      = if (parseGoInt "0").isSome then QueryNodeKind.slice else QueryNodeKind.object :=
  c4_kind_follows_last_access (QueryNode.mk [] [] none .unspecified) _ "0" [] "x" rfl

unseal validate oneOfMatches in
/-- Claim C1 (code bug): against `{oneOf:[{multipleOf:2},{multipleOf:3}]}` the
value 6 yields one "oneOf" failure as claimed, but the code appends the
failure whenever the clean-branch count is *nonzero* (`matches != 0` instead
of `matches != 1`): value 9, which matches exactly one branch, also fails, and
value 5, which matches no branch, does not fail — contradicting the claim and
the repository's own `TestValidate` cases ("oneof #2" expects no failure for
9, "oneof fail neither" expects a failure for 5). -/
theorem c1_oneOf_appends_on_nonzero_matches :
    validate defaultVctx oneOf23Schema (.int 6) []
        = [{ path := [], rule := validationRuleOneOf,
             message := "6 does not match one of the possible schemas" }]
      ∧ validate defaultVctx oneOf23Schema (.int 9) []
        = [{ path := [], rule := validationRuleOneOf,
             message := "9 does not match one of the possible schemas" }]
      ∧ validate defaultVctx oneOf23Schema (.int 5) [] = [] :=
  ⟨rfl, rfl, rfl⟩

unseal validate validateStructFields String.splitOnAux in
/-- Claim C2 (corrected, counterexample): against the claim's exact schema
`{required:["X"]}` — whose properties map is nil — the struct value
`{X: null}` yields *no* failure at all: the struct case breaks out before the
field loop when `schema.Properties == nil`. -/
theorem c2_required_nil_properties_no_failure :
    validate defaultVctx requiredXSchema structXNull [] = [] :=
  rfl

unseal validate validateStructFields String.splitOnAux in
/-- Claim C2 (amended): with the properties map present (e.g.
`{required:["X"], properties:{}}`), the null field `X` yields exactly one
failure with rule "required"; its path is the struct's (parent's) cursor path
— empty at the root — not `["X"]`, and the offending property is named in the
message.  This matches the repository's own test "struct required fail",
which expects `Path: []string{}`. -/
theorem c2_required_amended (p : List String) :
    validate defaultVctx requiredXPropsSchema structXNull p
      = [{ path := p, rule := validationRuleRequired,
           message := "X is a required field" }] := by
  rfl

unseal validate in
/-- Claim C3 (code bug): the `FailDeprecated` validation option is documented
("if specifying a deprecated value should result in a validation error") and
exercised by the repository's tests, but `Validate` never consults it: a
non-default value against a deprecated schema fails with rule "deprecated"
under a provider with *no* options configured, exactly as under
`FailDeprecated: true`, while the claim says no failure may be appended when
the option is not configured.  (The zero value appends nothing, as claimed.) -/
theorem c3_deprecated_ignores_failDeprecated :
    validate defaultVctx deprecatedSchema (.int 1) []
        = [{ path := [], rule := validationRuleDeprecated }]
      ∧ validate ⟨fun _ => { failDeprecated := true }, fun _ => none, fun _ => none⟩
          deprecatedSchema (.int 1) []
        = [{ path := [], rule := validationRuleDeprecated }]
      ∧ validate defaultVctx deprecatedSchema (.int 0) [] = [] :=
  ⟨rfl, rfl, rfl⟩

unseal getSchemaB buildSchemaB addPropertiesB String.splitOnAux in
/-- Claim C7 (confirmed): building the self-referential struct
`type A struct { Child *A }` terminates (finite fuel suffices) and yields a
finite schema: `A` is promoted — its placeholder is registered in the cache at
handle 0 before the field recursion, so the recursive `GetSchema(*A)` hits the
cache — and the `child` property is `oneOf($ref → handle 0, null)`, a
reference to the promoted name rather than an inlined copy. -/
theorem c7_selfref_schema_is_reference :
    (selfRefRun.map fun r => r.2) = some (some 0)
      ∧ (selfRefRun.map fun r => alookup r.1.cache (.defined "A")) = some (some 0)
      ∧ (selfRefRun.map fun r => (r.1.read 0).core.named) = some (some 0)
      ∧ (selfRefRun.map fun r => (r.1.read 0).properties)
        = some (some [("child",
            Schema.mk {} []
              [schemaOfCore { reference := some 0 },
               schemaOfCore { type := some DataType.null }] [] none none none none)])
      ∧ (selfRefRun.map fun r => (r.1.read 0).core.required) = some (some ["child"]) :=
  ⟨rfl, rfl, rfl, rfl, rfl⟩

unseal getSchemaB buildSchemaB in
/-- Claim C8 (corrected, counterexample): for the unpromoted scalar type
`int` the first build stores nothing in the cache, and a second call rebuilds,
returning a freshly allocated node (handle 1, not the first call's handle 0) —
not "the very node stored in the cache by the first call". -/
theorem c8_unpromoted_rebuilds :
    (intRun1.map fun r => r.2) = some (some 0)
      ∧ (intRun1.map fun r => alookup r.1.cache .int) = some none
      ∧ ((intRun1.bind fun r => getSchemaB 10 {} r.1 .int).map fun r => r.2)
        = some (some 1) :=
  ⟨rfl, rfl, rfl⟩

unseal getSchemaB buildSchemaB addPropertiesB String.splitOnAux in
/-- Claim C8 (amended): repeated builds are idempotent only through the cache.
(1) For every fuel, environment, builder state and type with a cache entry,
`GetSchema` returns the very cached node and leaves the state untouched.
(2) Every struct-like (promoted) type built from an uncached state is stored
in the cache under the very handle the build returns, so a second call — with
any fuel — returns exactly the first call's node and state.  (3) A type with
no promotion trigger (not struct-like, not custom-named, no custom schema
hook) never gains a cache entry from a build.  (4) Concretely, the unpromoted
scalar `int` is rebuilt on the second call at a fresh handle (1, not 0) with a
structurally identical schema, while the empty struct `B`'s second build
returns the first build's node and state exactly. -/
theorem c8_idempotence_amended :
    (∀ (fuel : Nat) (env : Env) (st : BuildState) (t : Ty) (hdl : Nat),
        alookup st.cache t = some hdl →
        getSchemaB fuel env st t = some (st, some hdl))
      ∧ (∀ (fuel fuel2 : Nat) (env : Env) (st st' : BuildState) (nm : String) (hdl : Nat),
          alookup st.cache (Ty.defined nm) = none →
          getSchemaB fuel env st (Ty.defined nm) = some (st', some hdl) →
          getSchemaB fuel2 env st' (Ty.defined nm) = some (st', some hdl))
      ∧ (∀ (fuel : Nat) (env : Env) (st : BuildState) (t : Ty) (r : BuildState × Option Nat),
          Promotable env t = false →
          getSchemaB fuel env st t = some r →
          alookup r.1.cache t = alookup st.cache t)
      ∧ (intRun1.map fun r => (r.2, r.1.read 0))
        = some (some 0, schemaOfCore { type := some DataType.integer })
      ∧ ((intRun1.bind fun r => getSchemaB 10 {} r.1 .int).map fun r => (r.2, r.1.read 1))
        = some (some 1, schemaOfCore { type := some DataType.integer })
      ∧ (structBRun.bind fun r => getSchemaB 10 structBEnv r.1 (.defined "B")) = structBRun :=
  ⟨getSchemaB_cache_hit,
   fun fuel fuel2 env st st' nm hdl hmiss h =>
     getSchemaB_cache_hit fuel2 env st' _ hdl
       (getSchemaB_defined_caches fuel env st nm st' hdl hmiss h),
   getSchemaB_unpromotable,
   rfl, rfl, rfl⟩

unseal getSchemaB buildSchemaB addPropertiesB String.splitOnAux in
/-- Witness for the amended claim C8's universal parts at concrete inputs: a
cached `int` entry is returned verbatim, the struct `B` built once from the
empty builder is returned verbatim by a second call of different fuel, and the
unpromoted `int` build leaves the cache without an `int` entry. -/
theorem c8_idempotence_amended_witness :
    getSchemaB 3 {} { cache := [(Ty.int, 5)] } .int
        = some ({ cache := [(Ty.int, 5)] }, some 5)
      ∧ getSchemaB 7 structBEnv structBState (.defined "B")
        = some (structBState, some 0)
      ∧ alookup ({ heap := [schemaOfCore { type := some DataType.integer }] }
          : BuildState).cache .int = alookup ({} : BuildState).cache .int :=
  ⟨c8_idempotence_amended.1 3 {} { cache := [(Ty.int, 5)] } .int 5 rfl,
   c8_idempotence_amended.2.1 10 7 structBEnv {} structBState "B" 0 rfl rfl,
   c8_idempotence_amended.2.2.1 10 {} {} .int
     ({ heap := [schemaOfCore { type := some DataType.integer }] }, some 0) rfl rfl⟩

unseal getSchemaB buildSchemaB in
/-- Claim C6 (corrected, counterexample): building `*int` when `int` carries a
registered base schema with exactly one `allOf` entry rewrites the node to
`oneOf(allOf[0], null)` with the nullable flag left `false` — not the inline
nullable flag the claim requires for every unnamed pointee — so the claimed
dichotomy "named → oneOf wrapper, otherwise inline flag" is not exhaustive. -/
theorem c6_allOf_branch_not_inline_flag :
    (c6Run.map fun r => r.2) = some (some 1)
      ∧ (c6Run.map fun r => (r.1.read 1).core.nullable) = some false
      ∧ (c6Run.map fun r => (r.1.read 1).oneOf.map fun b => b.core.type)
        = some [some DataType.string, some DataType.null]
      ∧ (c6Run.map fun r => (r.1.read 1).allOf) = some [] :=
  ⟨rfl, rfl, rfl, rfl⟩

/-- Projection computation for the schema update helpers. -/
theorem withOneOf_oneOf (s : Schema) (l : List Schema) : (s.withOneOf l).oneOf = l := by
  cases s
  rfl

theorem withOneOf_allOf (s : Schema) (l : List Schema) : (s.withOneOf l).allOf = s.allOf := by
  cases s
  rfl

theorem withOneOf_core (s : Schema) (l : List Schema) : (s.withOneOf l).core = s.core := by
  cases s
  rfl

theorem withAllOf_allOf (s : Schema) (l : List Schema) : (s.withAllOf l).allOf = l := by
  cases s
  rfl

theorem withAllOf_oneOf (s : Schema) (l : List Schema) : (s.withAllOf l).oneOf = s.oneOf := by
  cases s
  rfl

theorem withAllOf_core (s : Schema) (l : List Schema) : (s.withAllOf l).core = s.core := by
  cases s
  rfl

theorem withCore_core (s : Schema) (c : SchemaCore) : (s.withCore c).core = c := by
  cases s
  rfl

theorem withCore_oneOf (s : Schema) (c : SchemaCore) : (s.withCore c).oneOf = s.oneOf := by
  cases s
  rfl

theorem withCore_allOf (s : Schema) (c : SchemaCore) : (s.withCore c).allOf = s.allOf := by
  cases s
  rfl

/-- Claim C6 (amended): `makeNullable` produces exactly one of *three* shapes.
If the pointee's schema is named, the result is a freshly allocated
`oneOf(reference-to-name, null-type)` node and the named node itself is not
mutated.  Otherwise, if the schema has exactly one `allOf` entry, that node is
rewritten in place to `oneOf(allOf[0], null-type)` with `allOf` cleared and
the nullable flag untouched.  Otherwise the inline nullable flag is set in
place and no `oneOf` wrapper is created.  A single call never both creates
the `oneOf`-null wrapper and sets the inline flag. -/
theorem c6_makeNullable_shapes (st : BuildState) (h : Nat)
    (hlt : h < st.heap.length) :
    ((st.read h).core.named.isSome →
        (makeNullable st h).1.read h = st.read h
          ∧ (makeNullable st h).2 = st.heap.length
          ∧ (makeNullable st h).1.read (makeNullable st h).2
              = Schema.mk {} []
                  [(st.read h).asReference, schemaOfCore { type := some DataType.null }]
                  [] none none none none)
      ∧ ((st.read h).core.named = none → (st.read h).allOf.length = 1 →
          (makeNullable st h).2 = h
            ∧ ((makeNullable st h).1.read h).oneOf
                = [(st.read h).allOf.getD 0 Schema.empty,
                   schemaOfCore { type := some DataType.null }]
            ∧ ((makeNullable st h).1.read h).allOf = []
            ∧ ((makeNullable st h).1.read h).core.nullable = (st.read h).core.nullable)
      ∧ ((st.read h).core.named = none → (st.read h).allOf.length ≠ 1 →
          (makeNullable st h).2 = h
            ∧ ((makeNullable st h).1.read h).core.nullable = true
            ∧ ((makeNullable st h).1.read h).oneOf = (st.read h).oneOf
            ∧ ((makeNullable st h).1.read h).allOf = (st.read h).allOf) := by
  refine ⟨?_, ?_, ?_⟩
  · intro hnamed
    obtain ⟨nm, hnm⟩ := Option.isSome_iff_exists.mp hnamed
    simp only [makeNullable, hnm]
    exact ⟨read_alloc_old st _ h hlt, rfl, read_alloc_new st _⟩
  · intro hnone hlen
    simp only [makeNullable, hnone, hlen, beq_self_eq_true, if_true]
    refine ⟨by trivial, ?_, ?_, ?_⟩ <;>
      rw [read_write_at st h _ hlt] <;>
      simp [withOneOf_oneOf, withOneOf_allOf, withAllOf_allOf, withOneOf_core,
        withAllOf_core]
  · intro hnone hlen
    have hbeq : ((st.read h).allOf.length == 1) = false := by
      simpa using hlen
    simp only [makeNullable, hnone, hbeq, Bool.false_eq_true, if_false]
    refine ⟨by trivial, ?_, ?_, ?_⟩ <;>
      rw [read_write_at st h _ hlt] <;>
      simp [withCore_core, withCore_oneOf, withCore_allOf]

/-- Witness for the amended C6 theorem at a one-schema arena holding the Go
zero schema (unnamed, no `allOf`): the third branch applies. -/
theorem c6_makeNullable_shapes_witness :
    0 < c6WitnessState.heap.length
      ∧ (((c6WitnessState.read 0).core.named.isSome →
            (makeNullable c6WitnessState 0).1.read 0 = c6WitnessState.read 0
              ∧ (makeNullable c6WitnessState 0).2 = c6WitnessState.heap.length
              ∧ (makeNullable c6WitnessState 0).1.read (makeNullable c6WitnessState 0).2
                  = Schema.mk {} []
                      [(c6WitnessState.read 0).asReference,
                       schemaOfCore { type := some DataType.null }]
                      [] none none none none)
          ∧ ((c6WitnessState.read 0).core.named = none →
              (c6WitnessState.read 0).allOf.length = 1 →
              (makeNullable c6WitnessState 0).2 = 0
                ∧ ((makeNullable c6WitnessState 0).1.read 0).oneOf
                    = [(c6WitnessState.read 0).allOf.getD 0 Schema.empty,
                       schemaOfCore { type := some DataType.null }]
                ∧ ((makeNullable c6WitnessState 0).1.read 0).allOf = []
                ∧ ((makeNullable c6WitnessState 0).1.read 0).core.nullable
                    = (c6WitnessState.read 0).core.nullable)
          ∧ ((c6WitnessState.read 0).core.named = none →
              (c6WitnessState.read 0).allOf.length ≠ 1 →
              (makeNullable c6WitnessState 0).2 = 0
                ∧ ((makeNullable c6WitnessState 0).1.read 0).core.nullable = true
                ∧ ((makeNullable c6WitnessState 0).1.read 0).oneOf
                    = (c6WitnessState.read 0).oneOf
                ∧ ((makeNullable c6WitnessState 0).1.read 0).allOf
                    = (c6WitnessState.read 0).allOf)) :=
  ⟨by simp [c6WitnessState], c6_makeNullable_shapes c6WitnessState 0 (by simp [c6WitnessState])⟩

/-- Every failure the `AllOf` loop appends has rule "allOf". -/
theorem allOfCheck_rule (ctx : Vctx) (branches : List Schema) (rv : Val)
    (path : List String) (nm : Option Nat) :
    ∀ f ∈ allOfCheck ctx branches rv path nm, f.rule = validationRuleAllOf := by
  induction branches with
  | nil => simp [allOfCheck]
  | cons b rest ih =>
    intro f hf
    simp only [allOfCheck] at hf
    split at hf
    · exact ih f hf
    · simp at hf
      rw [hf]

/-- Every failure the `Not` block appends has rule "not". -/
theorem notCheck_rule (ctx : Vctx) (os : Option Schema) (rv : Val)
    (path : List String) (nm : Option Nat) :
    ∀ f ∈ notCheck ctx os rv path nm, f.rule = validationRuleNot := by
  intro f hf
  cases os with
  | none => simp [notCheck] at hf
  | some ns =>
    simp only [notCheck] at hf
    split at hf
    · simp at hf
      rw [hf]
    · simp at hf

/-- Claim C10 (confirmed): a maximum-length bound of zero is treated as
absent — for every validation context, schema with `MaxLength = 0`, string
value and cursor path, the validator never appends a failure with rule
"maxLength" (the check is guarded by `schema.MaxLength != 0`). -/
theorem c10_maxLength_zero_is_unbounded (ctx : Vctx) (schema : Schema)
    (s : String) (path : List String) (h : schema.core.maxLength = 0) :
    ∀ f ∈ validate ctx schema (.str s) path, f.rule ≠ validationRuleMaxLength := by
  intro f hf
  rw [validate.eq_def] at hf
  cases hml : schema.core.minLength <;>
    cases hpc : ctx.patternCompile schema.core.pattern <;>
      cases hfr : ctx.formatRegex schema.core.format <;>
        simp [isNull, h, hml, hpc, hfr] at hf
  all_goals
    repeat'
      first
      | (obtain hf | hf := hf)
      | (obtain ⟨-, hf⟩ := hf)
  all_goals
    first
    | (rw [allOfCheck_rule ctx schema.allOf (Val.str s) path schema.getName f hf]
       simp [validationRuleAllOf, validationRuleMaxLength])
    | (rw [notCheck_rule ctx schema.not (Val.str s) path schema.getName f hf]
       simp [validationRuleNot, validationRuleMaxLength])
    | (subst hf
       simp [validationRuleMaxLength, validationRuleNullable, validationRuleDeprecated,
         validationRuleMinLength, validationRulePattern, validationRuleFormat,
         validationRuleEnum, validationRuleOneOf, validationRuleAllOf,
         validationRuleAnyOf, validationRuleNot])
    | simp [validationRuleMaxLength, validationRuleNullable, validationRuleDeprecated,
        validationRuleMinLength, validationRulePattern, validationRuleFormat,
        validationRuleEnum, validationRuleOneOf, validationRuleAllOf,
        validationRuleAnyOf, validationRuleNot]

/-- Witness for C10 at the Go zero schema (whose `MaxLength` is 0) and a
concrete long string. -/
theorem c10_maxLength_zero_is_unbounded_witness :
    Schema.empty.core.maxLength = 0
      ∧ ∀ f ∈ validate defaultVctx Schema.empty (.str "a fairly long string value") [],
          f.rule ≠ validationRuleMaxLength :=
  ⟨rfl, c10_maxLength_zero_is_unbounded defaultVctx Schema.empty
    "a fairly long string value" [] rfl⟩

/-- Witness instantiating the amended C2 theorem at the root cursor. -/
theorem c2_required_amended_witness :
    validate defaultVctx requiredXPropsSchema structXNull []
      = [{ path := [], rule := validationRuleRequired,
           message := "X is a required field" }] :=
  c2_required_amended []
